import Mathlib

/-!
Shallow embedding of the SkyWings Airlines backend booking/check-in core.

The relational store is modelled as lists of rows with explicit
auto-increment counters; each HTTP handler becomes a pure function from a
database state and request data to a result value and the successor state.
Transactions are atomic by construction: a handler either returns the
input state unchanged (rollback) or the fully committed successor state.

Modelling conventions, matching the source:
* `bookings.js` POST /create, POST /:id/cancel, POST /:id/update-status;
  `checkin` routes POST /search and POST /confirm; `flights.js`
  GET /search; the admin flight-update fare fields from `users.js`.
* Timestamps are epoch milliseconds (`Int`); the JavaScript expression
  `(departureTime - now) / 3600000 < 0` is modelled as
  `departure_datetime - now < 0`, and `> 24` as `> 86400000`, which are
  equivalent since division by a positive constant preserves order.
* Monetary amounts are exact integers; the source manipulates them as
  JavaScript numbers but no claim depends on rounding.
* `INNER JOIN airports` in the handlers only projects display columns of
  the static seeded airport reference table (spec section 3: immutable
  once seeded), so airports are not part of the state.
* express-validator rule sets are external collaborators per spec
  section 1; handlers are modelled from the first line after validation.
* String case mapping and trimming (`toUpperCase`, `trim`, SQL `LOWER`)
  are modelled character-wise for the ASCII range.
-/

namespace SkyWings

/-- One row of the `aircraft` table (the columns the core reads). -/
structure Aircraft where
  aircraft_id : Nat
  capacity : Nat
  deriving Repr, DecidableEq

/-- One row of the `flights` table (the columns the core reads). -/
structure Flight where
  flight_id : Nat
  aircraft_id : Nat
  from_airport_code : String
  to_airport_code : String
  status : String
  base_price : Int
  business_price : Int
  first_class_price : Int
  departure_datetime : Int
  deriving Repr, DecidableEq

/-- One row of the `bookings` table.  `class` is a reserved word in Lean,
so the column is named `bclass`. -/
structure Booking where
  booking_id : Nat
  booking_reference : String
  user_id : Nat
  flight_id : Nat
  number_of_passengers : Nat
  bclass : String
  total_amount : Int
  status : String
  payment_status : String
  deriving Repr, DecidableEq

/-- One row of the `passengers` table. -/
structure Passenger where
  passenger_id : Nat
  user_id : Nat
  first_name : String
  last_name : String
  is_saved : Bool
  deriving Repr, DecidableEq

/-- One row of the `booking_passengers` link table. -/
structure BookingPassenger where
  booking_passenger_id : Nat
  booking_id : Nat
  passenger_id : Nat
  seat_number : Option String
  deriving Repr, DecidableEq

/-- One row of the `check_ins` table. -/
structure CheckIn where
  check_in_id : Nat
  booking_id : Nat
  check_in_datetime : Int
  gate_number : String
  boarding_time : Int
  status : String
  deriving Repr, DecidableEq

/-- The relational store: the tables the booking/check-in core touches,
plus the auto-increment counters. -/
structure DB where
  aircraft : List Aircraft
  flights : List Flight
  bookings : List Booking
  passengers : List Passenger
  booking_passengers : List BookingPassenger
  check_ins : List CheckIn
  nextBookingId : Nat
  nextPassengerId : Nat
  nextBpId : Nat
  nextCheckInId : Nat
  deriving Repr, DecidableEq

/-- ASCII upper-casing of one character (JavaScript `toUpperCase` on the
ASCII range). -/
def upChar (c : Char) : Char :=
  if 'a' ≤ c ∧ c ≤ 'z' then Char.ofNat (c.toNat - 32) else c

/-- ASCII lower-casing of one character (SQL `LOWER` on the ASCII range). -/
def lowChar (c : Char) : Char :=
  if 'A' ≤ c ∧ c ≤ 'Z' then Char.ofNat (c.toNat + 32) else c

/-- Whitespace test used by `trim`. -/
def isSpaceChar (c : Char) : Bool :=
  c == ' ' || c == '\t' || c == '\n' || c == '\r'

/-- Drop leading and trailing whitespace from a character list. -/
def trimChars (l : List Char) : List Char :=
  ((l.dropWhile isSpaceChar).reverse.dropWhile isSpaceChar).reverse

/-- JavaScript `s.trim().toUpperCase()` applied to a seat string. -/
def normalizeSeat (s : String) : String :=
  ⟨(trimChars s.data).map upChar⟩

/-- SQL `LOWER(s)`. -/
def lowerStr (s : String) : String :=
  ⟨s.data.map lowChar⟩

/-- The SQL `CASE WHEN ? = 'economy' THEN f.base_price WHEN ? = 'business'
THEN f.business_price WHEN ? = 'first' THEN f.first_class_price ELSE
f.base_price END` fare selection shared by `bookings.js` and `flights.js`. -/
def farePrice (f : Flight) (cls : String) : Int :=
  if cls == "economy" then f.base_price
  else if cls == "business" then f.business_price
  else if cls == "first" then f.first_class_price
  else f.base_price

/-- Rows of `flights INNER JOIN aircraft ON f.aircraft_id = a.aircraft_id`
in nested-loop order. -/
def flightAircraftRows (db : DB) : List (Flight × Aircraft) :=
  db.flights.flatMap fun f =>
    (db.aircraft.filter fun a => a.aircraft_id == f.aircraft_id).map fun a => (f, a)

/-- The flight lookup of POST /create: first joined row with the requested
id and a bookable status (`scheduled` or `boarding`). -/
def findBookableFlight (db : DB) (fid : Nat) : Option (Flight × Aircraft) :=
  (flightAircraftRows db).find? fun r =>
    r.1.flight_id == fid && (r.1.status == "scheduled" || r.1.status == "boarding")

/-- Number of bookings rows that join a link row with booking id `bid`
and count toward a flight's occupancy: `b.booking_id = bp.booking_id AND
b.flight_id = ? AND b.status != 'cancelled'`. -/
def bpJoinCount (bookings : List Booking) (fid : Nat) (bid : Nat) : Nat :=
  bookings.countP fun b =>
    b.booking_id == bid && b.flight_id == fid && b.status != "cancelled"

/-- `SELECT COUNT(*) FROM booking_passengers bp INNER JOIN bookings b ON
bp.booking_id = b.booking_id WHERE b.flight_id = ? AND b.status !=
'cancelled'` — the booked-seat count of POST /create and GET /search. -/
def bookedSeats (bookings : List Booking) (bps : List BookingPassenger) (fid : Nat) : Nat :=
  (bps.map fun bp => bpJoinCount bookings fid bp.booking_id).sum

/-- One passenger descriptor of the POST /create request body. -/
structure PassengerDescr where
  passenger_id : Option Nat
  first_name : String
  last_name : String
  seat_number : Option String
  save : Bool
  deriving Repr, DecidableEq

/-- Result of POST /create. -/
inductive CreateRes where
  | badRequest
  | flightNotFound
  | notEnoughSeats (remaining : Int)
  | ok (bookingId : Nat)
  deriving Repr, DecidableEq

/-- HTTP status of each POST /create outcome. -/
def CreateRes.httpStatus : CreateRes → Nat
  | .badRequest => 400
  | .flightNotFound => 404
  | .notEnoughSeats _ => 400
  | .ok _ => 201

/-- One iteration's passenger resolution in POST /create: reuse the given
`passenger_id` or insert a fresh `passengers` row; returns the id used. -/
def insertPassengerRow (uid : Nat) (d : PassengerDescr) (db : DB) : Nat × DB :=
  match d.passenger_id with
  | some pid => (pid, db)
  | none =>
    (db.nextPassengerId,
     { db with
        passengers := db.passengers ++
          [⟨db.nextPassengerId, uid, d.first_name, d.last_name, d.save⟩],
        nextPassengerId := db.nextPassengerId + 1 })

/-- `INSERT INTO booking_passengers (booking_id, passenger_id,
seat_number)`. -/
def insertBpRow (bid pid : Nat) (seat : Option String) (db : DB) : DB :=
  { db with
      booking_passengers := db.booking_passengers ++ [⟨db.nextBpId, bid, pid, seat⟩],
      nextBpId := db.nextBpId + 1 }

/-- The passenger loop of POST /create: for each descriptor, reuse the
given `passenger_id` or insert a fresh `passengers` row, then insert the
`booking_passengers` link carrying any client-supplied seat number. -/
def addPassengers (uid bid : Nat) : List PassengerDescr → DB → DB
  | [], db => db
  | d :: rest, db =>
    let pd := insertPassengerRow uid d db
    addPassengers uid bid rest (insertBpRow bid pd.1 d.seat_number pd.2)

/-- POST /api/bookings/create.  `ref` is the generated booking reference
(`'BK' + Date.now + random` in the source, an input here); `fid` is
`none` when `flight_id` is absent, and `some 0` is rejected because
JavaScript `!flight_id` is true for `0`. -/
def createBooking (db : DB) (uid : Nat) (ref : String) (fid : Option Nat)
    (passengers : List PassengerDescr) (cls : String) : CreateRes × DB :=
  match fid with
  | none => (.badRequest, db)
  | some 0 => (.badRequest, db)
  | some fid =>
    if passengers.isEmpty then (.badRequest, db)
    else
      match findBookableFlight db fid with
      | none => (.flightNotFound, db)
      | some (f, a) =>
        let booked := bookedSeats db.bookings db.booking_passengers fid
        let availableSeats : Int := (a.capacity : Int) - (booked : Int)
        if availableSeats < (passengers.length : Int) then
          (.notEnoughSeats availableSeats, db)
        else
          let totalAmount := farePrice f cls * (passengers.length : Int)
          let bid := db.nextBookingId
          let nb : Booking :=
            ⟨bid, ref, uid, fid, passengers.length, cls, totalAmount, "confirmed", "paid"⟩
          let db1 := { db with bookings := db.bookings ++ [nb], nextBookingId := bid + 1 }
          (.ok bid, addPassengers uid bid passengers db1)

/-- `UPDATE bookings SET ... WHERE booking_id = ?`: apply `g` to every row
with the given id. -/
def updateBookingRows (bs : List Booking) (bid : Nat) (g : Booking → Booking) : List Booking :=
  bs.map fun b => if b.booking_id == bid then g b else b

/-- Result of POST /:id/cancel. -/
inductive CancelRes where
  | invalidId
  | notFound
  | alreadyCancelled
  | cannotCancelCompleted
  | ok
  deriving Repr, DecidableEq

/-- HTTP status of each POST /:id/cancel outcome. -/
def CancelRes.httpStatus : CancelRes → Nat
  | .invalidId => 400
  | .notFound => 404
  | .alreadyCancelled => 400
  | .cannotCancelCompleted => 400
  | .ok => 200

/-- POST /api/bookings/:id/cancel.  `idParam` is `none` when
`parseInt(req.params.id)` is `NaN`. -/
def cancelBooking (db : DB) (uid : Nat) (idParam : Option Nat) : CancelRes × DB :=
  match idParam with
  | none => (.invalidId, db)
  | some bid =>
    match db.bookings.find? (fun b => b.booking_id == bid && b.user_id == uid) with
    | none => (.notFound, db)
    | some b =>
      if b.status == "cancelled" then (.alreadyCancelled, db)
      else if b.status == "completed" then (.cannotCancelCompleted, db)
      else
        (.ok,
         { db with
            bookings := updateBookingRows db.bookings bid fun x =>
              { x with status := "cancelled", payment_status := "refunded" } })

/-- Result of POST /:id/update-status. -/
inductive UpdateStatusRes where
  | invalidId
  | invalidStatus
  | notFound
  | ok
  deriving Repr, DecidableEq

/-- HTTP status of each POST /:id/update-status outcome. -/
def UpdateStatusRes.httpStatus : UpdateStatusRes → Nat
  | .invalidId => 400
  | .invalidStatus => 400
  | .notFound => 404
  | .ok => 200

/-- POST /api/bookings/:id/update-status: sets the status of any booking
owned by the caller to `completed`, `missed` or `cancelled`, with no
lifecycle-state check and no change to `payment_status`. -/
def updateBookingStatus (db : DB) (uid : Nat) (idParam : Option Nat)
    (status : Option String) : UpdateStatusRes × DB :=
  match idParam with
  | none => (.invalidId, db)
  | some bid =>
    match status with
    | none => (.invalidStatus, db)
    | some st =>
      if !(st == "completed" || st == "missed" || st == "cancelled") then
        (.invalidStatus, db)
      else
        match db.bookings.find? (fun b => b.booking_id == bid && b.user_id == uid) with
        | none => (.notFound, db)
        | some _ =>
          (.ok,
           { db with
              bookings := updateBookingRows db.bookings bid fun x =>
                { x with status := st } })

/-- Rows of `bookings INNER JOIN flights` in nested-loop order, used by
the check-in search lookup. -/
def bookingFlightRows (db : DB) : List (Booking × Flight) :=
  db.bookings.flatMap fun b =>
    (db.flights.filter fun f => f.flight_id == b.flight_id).map fun f => (b, f)

/-- The booking-by-reference lookup of POST /checkin/search. -/
def findBookingByRef (db : DB) (ref : String) : Option (Booking × Flight) :=
  (bookingFlightRows db).find? fun r => r.1.booking_reference == ref

/-- One row of the passenger list returned by the check-in search
(`booking_passengers INNER JOIN passengers`). -/
structure PassengerRow where
  passenger_id : Nat
  first_name : String
  last_name : String
  seat_number : Option String
  booking_passenger_id : Nat
  deriving Repr, DecidableEq

/-- Insertion step of the structural insertion sort. -/
def insertBy {α : Type} (le : α → α → Bool) (x : α) : List α → List α
  | [] => [x]
  | y :: ys => if le x y then x :: y :: ys else y :: insertBy le x ys

/-- Structural insertion sort (kernel-reducible `ORDER BY`). -/
def sortBy {α : Type} (le : α → α → Bool) : List α → List α
  | [] => []
  | x :: xs => insertBy le x (sortBy le xs)

/-- Lexicographic comparison of character lists by code point. -/
def charListLe : List Char → List Char → Bool
  | [], _ => true
  | _ :: _, [] => false
  | a :: as, b :: bs =>
    if a.toNat < b.toNat then true
    else if b.toNat < a.toNat then false
    else charListLe as bs

/-- `ORDER BY p.last_name, p.first_name` under the case-insensitive
default collation. -/
def nameLe (p q : PassengerRow) : Bool :=
  let pl := (lowerStr p.last_name).data
  let ql := (lowerStr q.last_name).data
  if pl = ql then charListLe (lowerStr p.first_name).data (lowerStr q.first_name).data
  else charListLe pl ql

/-- The passenger list of a booking as returned by POST /checkin/search:
join rows ordered by last name then first name. -/
def passengerRowsFor (db : DB) (bid : Nat) : List PassengerRow :=
  sortBy nameLe <|
    (db.booking_passengers.filter fun bp => bp.booking_id == bid).flatMap fun bp =>
      (db.passengers.filter fun p => p.passenger_id == bp.passenger_id).map fun p =>
        ⟨p.passenger_id, p.first_name, p.last_name, bp.seat_number, bp.booking_passenger_id⟩

/-- Result of POST /checkin/search. -/
inductive SearchRes where
  | notFound
  | forbidden
  | invalidState (st : String)
  | nameMismatch
  | alreadyCheckedIn (b : Booking)
  | departed
  | tooEarly
  | ok (b : Booking) (passengers : List PassengerRow)
  deriving Repr, DecidableEq

/-- HTTP status of each POST /checkin/search outcome.  The last-name
mismatch is returned with `res.status(404)` in the source. -/
def SearchRes.httpStatus : SearchRes → Nat
  | .notFound => 404
  | .forbidden => 403
  | .invalidState _ => 400
  | .nameMismatch => 404
  | .alreadyCheckedIn _ => 400
  | .departed => 400
  | .tooEarly => 400
  | .ok _ _ => 200

/-- The `success` boolean of each POST /checkin/search response body. -/
def SearchRes.successFlag : SearchRes → Bool
  | .ok _ _ => true
  | _ => false

/-- The window phase of POST /checkin/search, reached after the status,
last-name and completed-check-in gates.  `hoursUntilDeparture < 0` marks
the booking `missed` when no check-in row exists; `> 24` is too early;
otherwise the booking is returned with its passenger list. -/
def searchWindowPhase (db : DB) (now : Int) (b : Booking) (f : Flight) : SearchRes × DB :=
  let msUntil : Int := f.departure_datetime - now
  if msUntil < 0 then
    match db.check_ins.find? (fun c => c.booking_id == b.booking_id) with
    | some _ => (.departed, db)
    | none =>
      (.departed,
       { db with
          bookings := updateBookingRows db.bookings b.booking_id fun x =>
            { x with status := "missed" } })
  else if msUntil > 86400000 then (.tooEarly, db)
  else (.ok b (passengerRowsFor db b.booking_id), db)

/-- POST /api/checkin/search. -/
def checkinSearch (db : DB) (uid : Nat) (now : Int) (ref last_name : String) :
    SearchRes × DB :=
  match findBookingByRef db ref with
  | none => (.notFound, db)
  | some (b, f) =>
    if b.user_id != uid then (.forbidden, db)
    else if b.status != "confirmed" then (.invalidState b.status, db)
    else if !(db.booking_passengers.any fun bp =>
        bp.booking_id == b.booking_id &&
          db.passengers.any fun p =>
            p.passenger_id == bp.passenger_id &&
              lowerStr p.last_name == lowerStr last_name) then
      (.nameMismatch, db)
    else
      match db.check_ins.find? (fun c => c.booking_id == b.booking_id) with
      | some c =>
        if c.status == "completed" then (.alreadyCheckedIn b, db)
        else searchWindowPhase db now b f
      | none => searchWindowPhase db now b f

/-- Result of POST /checkin/confirm. -/
inductive ConfirmRes where
  | notFoundOrState
  | alreadyCheckedIn
  | flightNotFound
  | departed
  | tooEarly
  | countMismatch (seats passengers : Nat)
  | ok (bookingId : Nat) (gate : String) (boarding : Int)
  deriving Repr, DecidableEq

/-- HTTP status of each POST /checkin/confirm outcome.  A booking that is
not owned or not `confirmed` yields the 404 `Booking not found or cannot
be checked in`. -/
def ConfirmRes.httpStatus : ConfirmRes → Nat
  | .notFoundOrState => 404
  | .alreadyCheckedIn => 400
  | .flightNotFound => 404
  | .departed => 400
  | .tooEarly => 400
  | .countMismatch _ _ => 400
  | .ok _ _ _ => 200

/-- `gate_number || 'TBA'`: JavaScript treats a missing or empty gate as
falsy. -/
def gateOr (g : Option String) : String :=
  match g with
  | some s => if s == "" then "TBA" else s
  | none => "TBA"

/-- The seat-assignment loop of POST /checkin/confirm: positionally update
each link row's seat number, trimmed and upper-cased. -/
def assignSeats : List Nat → List String → DB → DB
  | bpId :: bids, seat :: seats, db =>
    assignSeats bids seats
      { db with
          booking_passengers := db.booking_passengers.map fun r =>
            if r.booking_passenger_id == bpId then
              { r with seat_number := some (normalizeSeat seat) }
            else r }
  | _, _, db => db

/-- Comparator for `ORDER BY booking_passenger_id`. -/
def bpIdLe (p q : BookingPassenger) : Bool :=
  p.booking_passenger_id ≤ q.booking_passenger_id

/-- POST /api/checkin/confirm. -/
def checkinConfirm (db : DB) (uid : Nat) (now : Int) (bid : Nat)
    (seat_numbers : List String) (gate_number : Option String) : ConfirmRes × DB :=
  match db.bookings.find? (fun b =>
      b.booking_id == bid && b.user_id == uid && b.status == "confirmed") with
  | none => (.notFoundOrState, db)
  | some b =>
    if db.check_ins.any (fun c => c.booking_id == bid) then (.alreadyCheckedIn, db)
    else
      match db.flights.find? (fun f => f.flight_id == b.flight_id) with
      | none => (.flightNotFound, db)
      | some f =>
        let msUntil : Int := f.departure_datetime - now
        if msUntil < 0 then
          (.departed,
           { db with
              bookings := updateBookingRows db.bookings bid fun x =>
                { x with status := "missed" } })
        else if msUntil > 86400000 then (.tooEarly, db)
        else
          let boardingTime := f.departure_datetime - 30 * 60 * 1000
          let rows := sortBy bpIdLe
            (db.booking_passengers.filter fun bp => bp.booking_id == bid)
          if rows.length != seat_numbers.length then
            (.countMismatch seat_numbers.length rows.length, db)
          else
            let db1 :=
              { db with
                  check_ins := db.check_ins ++
                    [⟨db.nextCheckInId, bid, now, gateOr gate_number, boardingTime,
                      "completed"⟩],
                  nextCheckInId := db.nextCheckInId + 1 }
            (.ok bid (gateOr gate_number) boardingTime,
             assignSeats (rows.map (·.booking_passenger_id)) seat_numbers db1)

/-- Result of the admin flight update. -/
inductive FareUpdateRes where
  | notFound
  | noFields
  | ok
  deriving Repr, DecidableEq

/-- The fare fields of admin PUT /flights/:id (`users.js` admin section):
each given price replaces the corresponding column of the flight row.
The route-, schedule- and status-update fields of the same handler are
outside the booking core and not modelled. -/
def updateFlightFares (db : DB) (fid : Nat)
    (base business first : Option Int) : FareUpdateRes × DB :=
  match db.flights.find? (fun f => f.flight_id == fid) with
  | none => (.notFound, db)
  | some _ =>
    if base == none && business == none && first == none then (.noFields, db)
    else
      (.ok,
       { db with
          flights := db.flights.map fun f =>
            if f.flight_id == fid then
              { f with
                  base_price := base.getD f.base_price,
                  business_price := business.getD f.business_price,
                  first_class_price := first.getD f.first_class_price }
            else f })

/-- One row of the GET /flights/search response. -/
structure FlightSearchRow where
  flight_id : Nat
  price : Int
  capacity : Nat
  available_seats : Int
  total_price : Int
  deriving Repr, DecidableEq

/-- GET /api/flights/search: filter the flight-aircraft join to bookable
statuses and the requested route/date, then derive `price`,
`available_seats = Math.max(0, capacity - booked)` and
`total_price = price * passengers` per row.  The calendar-date filter
`DATE(departure_datetime) = ?` is modelled by the day index of the
timestamp.  The handler only reads the store. -/
def flightSearchRows (db : DB) (fromC toC : Option String) (dep : Option Int)
    (pax : Nat) (cls : String) : List FlightSearchRow :=
  ((flightAircraftRows db).filter fun r =>
      (r.1.status == "scheduled" || r.1.status == "boarding") &&
      (match fromC with | some s => r.1.from_airport_code == s | none => true) &&
      (match toC with | some s => r.1.to_airport_code == s | none => true) &&
      (match dep with | some d => r.1.departure_datetime.fdiv 86400000 == d | none => true)).map
    fun r =>
      let booked := bookedSeats db.bookings db.booking_passengers r.1.flight_id
      { flight_id := r.1.flight_id
        price := farePrice r.1 cls
        capacity := r.2.capacity
        available_seats := max 0 ((r.2.capacity : Int) - (booked : Int))
        total_price := farePrice r.1 cls * (pax : Int) }

/-- One state-changing request of the modelled system. -/
inductive Step where
  | create (uid : Nat) (ref : String) (fid : Option Nat)
      (ds : List PassengerDescr) (cls : String)
  | cancel (uid : Nat) (bid : Option Nat)
  | updateStatus (uid : Nat) (bid : Option Nat) (st : Option String)
  | search (uid : Nat) (now : Int) (ref name : String)
  | confirm (uid : Nat) (now : Int) (bid : Nat) (seats : List String)
      (gate : Option String)
  | updateFares (fid : Nat) (base business first : Option Int)
  deriving Repr, DecidableEq

/-- The state transition of one request (the committed successor state). -/
def applyStep (db : DB) : Step → DB
  | .create uid ref fid ds cls => (createBooking db uid ref fid ds cls).2
  | .cancel uid bid => (cancelBooking db uid bid).2
  | .updateStatus uid bid st => (updateBookingStatus db uid bid st).2
  | .search uid now ref name => (checkinSearch db uid now ref name).2
  | .confirm uid now bid seats gate => (checkinConfirm db uid now bid seats gate).2
  | .updateFares fid b bu fi => (updateFlightFares db fid b bu fi).2

/-- Well-formedness of the store: auto-increment counters bound the
existing ids, primary keys are unique, and link rows reference only
already-allocated booking ids. -/
def WF (db : DB) : Prop :=
  (∀ b ∈ db.bookings, b.booking_id < db.nextBookingId) ∧
  (db.bookings.map Booking.booking_id).Nodup ∧
  (∀ bp ∈ db.booking_passengers, bp.booking_id < db.nextBookingId) ∧
  (∀ bp ∈ db.booking_passengers, bp.booking_passenger_id < db.nextBpId) ∧
  (db.booking_passengers.map BookingPassenger.booking_passenger_id).Nodup ∧
  (db.flights.map Flight.flight_id).Nodup ∧
  (db.aircraft.map Aircraft.aircraft_id).Nodup

/-- The capacity invariant of spec section 3: for every flight, the
booked-seat count never exceeds the capacity of its aircraft. -/
def capacityInv (db : DB) : Prop :=
  ∀ f ∈ db.flights, ∀ a ∈ db.aircraft, a.aircraft_id = f.aircraft_id →
    bookedSeats db.bookings db.booking_passengers f.flight_id ≤ a.capacity

instance (db : DB) : Decidable (WF db) := by
  unfold WF
  exact inferInstance

instance (db : DB) : Decidable (capacityInv db) := by
  unfold capacityInv
  exact inferInstance

/-- A status-update step does not revive a cancelled booking: whenever the
targeted rows are cancelled, the requested status is again `cancelled`. -/
def noRevive (db : DB) : Step → Prop
  | .updateStatus _ (some bid) (some st) =>
    ∀ b ∈ db.bookings, b.booking_id = bid → b.status = "cancelled" → st = "cancelled"
  | _ => True

/-- Index of the first occurrence of `x` in a list of ids. -/
def idxOf? (x : Nat) : List Nat → Option Nat
  | [] => none
  | y :: ys => if y == x then some 0 else (idxOf? x ys).map (· + 1)

/-- The final value of a link row after the positional seat-update loop of
POST /checkin/confirm: if its id occurs among the selected ids at a
position that also indexes a seat string, the seat becomes that string
normalized; otherwise the row is untouched. -/
def seatFor (bids : List Nat) (seats : List String) (r : BookingPassenger) : BookingPassenger :=
  match idxOf? r.booking_passenger_id bids with
  | some i =>
    match seats.get? i with
    | some s => { r with seat_number := some (normalizeSeat s) }
    | none => r
  | none => r

/-- A small healthy store: one aircraft of capacity 5, one scheduled
flight, one confirmed paid booking by user 7 with one linked passenger. -/
def wdb : DB :=
  { aircraft := [⟨1, 5⟩]
    flights := [⟨1, 1, "JFK", "LAX", "scheduled", 100, 250, 400, 1000000000⟩]
    bookings := [⟨1, "BKREF1", 7, 1, 1, "economy", 100, "confirmed", "paid"⟩]
    passengers := [⟨1, 7, "Ann", "Smith", true⟩]
    booking_passengers := [⟨1, 1, 1, none⟩]
    check_ins := []
    nextBookingId := 2
    nextPassengerId := 2
    nextBpId := 2
    nextCheckInId := 1 }

/-- `wdb` with a completed check-in already recorded for the booking. -/
def wdbChecked : DB :=
  { wdb with check_ins := [⟨1, 1, 999000000, "A1", 999998200000, "completed"⟩],
             nextCheckInId := 2 }

/-- A full flight (capacity 1) with one cancelled and one confirmed
single-passenger booking: the capacity invariant holds, but reviving the
cancelled booking would overbook. -/
def exRevive : DB :=
  { aircraft := [⟨1, 1⟩]
    flights := [⟨1, 1, "JFK", "LAX", "scheduled", 100, 200, 300, 1000000000⟩]
    bookings := [⟨1, "BKA1", 7, 1, 1, "economy", 100, "cancelled", "refunded"⟩,
                 ⟨2, "BKB2", 7, 1, 1, "economy", 100, "confirmed", "paid"⟩]
    passengers := [⟨1, 7, "Ann", "Smith", false⟩, ⟨2, 7, "Bob", "Jones", false⟩]
    booking_passengers := [⟨1, 1, 1, none⟩, ⟨2, 2, 2, none⟩]
    check_ins := []
    nextBookingId := 3
    nextPassengerId := 3
    nextBpId := 3
    nextCheckInId := 1 }

/-- An overbooked store (two seats sold on a capacity-1 aircraft), as
reachable by reviving a cancelled booking through update-status. -/
def exOverbooked : DB :=
  { exRevive with
      bookings := [⟨1, "BKA1", 7, 1, 1, "economy", 100, "completed", "refunded"⟩,
                   ⟨2, "BKB2", 7, 1, 1, "economy", 100, "confirmed", "paid"⟩] }

theorem insertBy_perm {α : Type} (le : α → α → Bool) (x : α) (l : List α) :
    (insertBy le x l).Perm (x :: l) := by
  induction l with
  | nil => simp [insertBy]
  | cons y ys ih =>
    by_cases h : le x y = true
    · simp [insertBy, h]
    · simp only [insertBy, h, if_false]
      exact (ih.cons y).trans (List.Perm.swap x y ys)

theorem sortBy_perm {α : Type} (le : α → α → Bool) (l : List α) :
    (sortBy le l).Perm l := by
  induction l with
  | nil => simp [sortBy]
  | cons x xs ih =>
    exact (insertBy_perm le x (sortBy le xs)).trans (ih.cons x)

theorem bpJoinCount_map_le (g : Booking → Booking) (bookings : List Booking) (fid bid : Nat)
    (hid : ∀ b, (g b).booking_id = b.booking_id)
    (hfl : ∀ b, (g b).flight_id = b.flight_id)
    (hst : ∀ b ∈ bookings, b.status = "cancelled" → (g b).status = "cancelled") :
    bpJoinCount (bookings.map g) fid bid ≤ bpJoinCount bookings fid bid := by
  unfold bpJoinCount
  rw [List.countP_map]
  apply List.countP_mono_left
  intro b hb h
  simp only [Function.comp_apply, Bool.and_eq_true, beq_iff_eq, bne_iff_ne, ne_eq] at h ⊢
  obtain ⟨⟨h1, h2⟩, h3⟩ := h
  rw [hid b] at h1
  rw [hfl b] at h2
  exact ⟨⟨h1, h2⟩, fun hc => h3 (hst b hb hc)⟩

theorem bookedSeats_bookings_map_le (g : Booking → Booking)
    (bookings : List Booking) (bps : List BookingPassenger) (fid : Nat)
    (hid : ∀ b, (g b).booking_id = b.booking_id)
    (hfl : ∀ b, (g b).flight_id = b.flight_id)
    (hst : ∀ b ∈ bookings, b.status = "cancelled" → (g b).status = "cancelled") :
    bookedSeats (bookings.map g) bps fid ≤ bookedSeats bookings bps fid := by
  unfold bookedSeats
  exact List.sum_le_sum fun bp _ => bpJoinCount_map_le g bookings fid bp.booking_id hid hfl hst

theorem bpJoinCount_append_old (bookings : List Booking) (nb : Booking) (fid bid : Nat)
    (h : bid ≠ nb.booking_id) :
    bpJoinCount (bookings ++ [nb]) fid bid = bpJoinCount bookings fid bid := by
  unfold bpJoinCount
  rw [List.countP_append]
  have hz : List.countP
      (fun b => b.booking_id == bid && b.flight_id == fid && b.status != "cancelled") [nb] = 0 := by
    simp only [List.countP_cons, List.countP_nil]
    have : (nb.booking_id == bid) = false := by
      simp only [beq_eq_false_iff_ne, ne_eq]
      exact fun he => h he.symm
    simp [this]
  omega

theorem bpJoinCount_append_new (bookings : List Booking) (nb : Booking) (fid : Nat)
    (hold : ∀ b ∈ bookings, b.booking_id ≠ nb.booking_id) :
    bpJoinCount (bookings ++ [nb]) fid nb.booking_id
      = if nb.flight_id == fid && nb.status != "cancelled" then 1 else 0 := by
  unfold bpJoinCount
  rw [List.countP_append]
  have h0 : List.countP
      (fun b => b.booking_id == nb.booking_id && b.flight_id == fid && b.status != "cancelled")
      bookings = 0 := by
    apply List.countP_eq_zero.mpr
    intro b hb
    have : (b.booking_id == nb.booking_id) = false := by
      simp only [beq_eq_false_iff_ne, ne_eq]
      exact hold b hb
    simp [this]
  simp [h0, List.countP_cons]

theorem bookedSeats_append_bps (bookings : List Booking)
    (bps₁ bps₂ : List BookingPassenger) (fid : Nat) :
    bookedSeats bookings (bps₁ ++ bps₂) fid
      = bookedSeats bookings bps₁ fid + bookedSeats bookings bps₂ fid := by
  unfold bookedSeats
  rw [List.map_append, List.sum_append]

theorem bookedSeats_bookings_append (bookings : List Booking) (nb : Booking)
    (bps : List BookingPassenger) (fid : Nat)
    (hbps : ∀ bp ∈ bps, bp.booking_id ≠ nb.booking_id) :
    bookedSeats (bookings ++ [nb]) bps fid = bookedSeats bookings bps fid := by
  unfold bookedSeats
  congr 1
  apply List.map_congr_left
  intro bp hbp
  exact bpJoinCount_append_old bookings nb fid bp.booking_id (hbps bp hbp)

theorem bookedSeats_congr_ids (bookings : List Booking)
    (bps₁ bps₂ : List BookingPassenger) (fid : Nat)
    (h : bps₁.map BookingPassenger.booking_id = bps₂.map BookingPassenger.booking_id) :
    bookedSeats bookings bps₁ fid = bookedSeats bookings bps₂ fid := by
  unfold bookedSeats
  have h1 : ∀ bps : List BookingPassenger,
      bps.map (fun bp => bpJoinCount bookings fid bp.booking_id)
        = (bps.map BookingPassenger.booking_id).map (bpJoinCount bookings fid) := by
    intro bps
    rw [List.map_map]
    rfl
  rw [h1, h1, h]

theorem updateBookingRows_map_ids (bs : List Booking) (bid : Nat) (g : Booking → Booking)
    (hid : ∀ b, (g b).booking_id = b.booking_id) :
    (updateBookingRows bs bid g).map Booking.booking_id = bs.map Booking.booking_id := by
  unfold updateBookingRows
  rw [List.map_map]
  apply List.map_congr_left
  intro b _
  by_cases h : b.booking_id = bid
  · simp [h, hid]
  · simp [h]

theorem addPassengers_spec (uid bid : Nat) (ds : List PassengerDescr) (db : DB) :
    (addPassengers uid bid ds db).aircraft = db.aircraft ∧
    (addPassengers uid bid ds db).flights = db.flights ∧
    (addPassengers uid bid ds db).bookings = db.bookings ∧
    (addPassengers uid bid ds db).check_ins = db.check_ins ∧
    (addPassengers uid bid ds db).nextBookingId = db.nextBookingId ∧
    (addPassengers uid bid ds db).nextBpId = db.nextBpId + ds.length ∧
    (∃ newP : List Passenger,
      (addPassengers uid bid ds db).passengers = db.passengers ++ newP ∧
      newP.length = ds.countP (fun d => d.passenger_id == none)) ∧
    (∃ newBps : List BookingPassenger,
      (addPassengers uid bid ds db).booking_passengers = db.booking_passengers ++ newBps ∧
      newBps.map BookingPassenger.booking_passenger_id = List.range' db.nextBpId ds.length ∧
      ∀ r ∈ newBps, r.booking_id = bid) := by
  induction ds generalizing db with
  | nil =>
    refine ⟨rfl, rfl, rfl, rfl, rfl, rfl, ⟨[], by simp [addPassengers], by simp⟩,
      ⟨[], by simp [addPassengers], by simp, by simp⟩⟩
  | cons d rest ih =>
    rcases hd : d.passenger_id with _ | pid
    · have hstep : addPassengers uid bid (d :: rest) db
          = addPassengers uid bid rest
              { db with
                  passengers := db.passengers ++
                    [⟨db.nextPassengerId, uid, d.first_name, d.last_name, d.save⟩],
                  nextPassengerId := db.nextPassengerId + 1,
                  booking_passengers := db.booking_passengers ++
                    [⟨db.nextBpId, bid, db.nextPassengerId, d.seat_number⟩],
                  nextBpId := db.nextBpId + 1 } := by
        simp [addPassengers, insertPassengerRow, insertBpRow, hd]
      obtain ⟨e1, e2, e3, e4, e5, e6, ⟨newP, hp1, hp2⟩, ⟨newBps, hb1, hb2, hb3⟩⟩ :=
        ih { db with
              passengers := db.passengers ++
                [⟨db.nextPassengerId, uid, d.first_name, d.last_name, d.save⟩],
              nextPassengerId := db.nextPassengerId + 1,
              booking_passengers := db.booking_passengers ++
                [⟨db.nextBpId, bid, db.nextPassengerId, d.seat_number⟩],
              nextBpId := db.nextBpId + 1 }
      rw [hstep]
      refine ⟨e1, e2, e3, e4, e5, ?_, ?_, ?_⟩
      · rw [e6]
        show db.nextBpId + 1 + rest.length = db.nextBpId + (rest.length + 1)
        omega
      · refine ⟨⟨db.nextPassengerId, uid, d.first_name, d.last_name, d.save⟩ :: newP, ?_, ?_⟩
        · rw [hp1]
          simp
        · simp [List.countP_cons, hd, hp2]
      · refine ⟨⟨db.nextBpId, bid, db.nextPassengerId, d.seat_number⟩ :: newBps, ?_, ?_, ?_⟩
        · rw [hb1]
          simp
        · simp only [List.map_cons, hb2, List.length_cons]
          rw [List.range'_succ db.nextBpId rest.length 1]
        · intro r hr
          rcases List.mem_cons.mp hr with hr | hr
          · simp [hr]
          · exact hb3 r hr
    · have hstep : addPassengers uid bid (d :: rest) db
          = addPassengers uid bid rest
              { db with
                  booking_passengers := db.booking_passengers ++
                    [⟨db.nextBpId, bid, pid, d.seat_number⟩],
                  nextBpId := db.nextBpId + 1 } := by
        simp [addPassengers, insertPassengerRow, insertBpRow, hd]
      obtain ⟨e1, e2, e3, e4, e5, e6, ⟨newP, hp1, hp2⟩, ⟨newBps, hb1, hb2, hb3⟩⟩ :=
        ih { db with
              booking_passengers := db.booking_passengers ++
                [⟨db.nextBpId, bid, pid, d.seat_number⟩],
              nextBpId := db.nextBpId + 1 }
      rw [hstep]
      refine ⟨e1, e2, e3, e4, e5, ?_, ?_, ?_⟩
      · rw [e6]
        show db.nextBpId + 1 + rest.length = db.nextBpId + (rest.length + 1)
        omega
      · refine ⟨newP, ?_, ?_⟩
        · rw [hp1]
        · simp [List.countP_cons, hd, hp2]
      · refine ⟨⟨db.nextBpId, bid, pid, d.seat_number⟩ :: newBps, ?_, ?_, ?_⟩
        · rw [hb1]
          simp
        · simp only [List.map_cons, hb2, List.length_cons]
          rw [List.range'_succ db.nextBpId rest.length 1]
        · intro r hr
          rcases List.mem_cons.mp hr with hr | hr
          · simp [hr]
          · exact hb3 r hr

theorem assignSeats_fields (bids : List Nat) (seats : List String) (db : DB) :
    (assignSeats bids seats db).aircraft = db.aircraft ∧
    (assignSeats bids seats db).flights = db.flights ∧
    (assignSeats bids seats db).bookings = db.bookings ∧
    (assignSeats bids seats db).passengers = db.passengers ∧
    (assignSeats bids seats db).check_ins = db.check_ins ∧
    (assignSeats bids seats db).nextBookingId = db.nextBookingId ∧
    (assignSeats bids seats db).nextPassengerId = db.nextPassengerId ∧
    (assignSeats bids seats db).nextBpId = db.nextBpId ∧
    (assignSeats bids seats db).nextCheckInId = db.nextCheckInId ∧
    (assignSeats bids seats db).booking_passengers.map
        (fun r => (r.booking_passenger_id, r.booking_id, r.passenger_id))
      = db.booking_passengers.map
        (fun r => (r.booking_passenger_id, r.booking_id, r.passenger_id)) := by
  induction bids generalizing seats db with
  | nil =>
    cases seats <;> exact ⟨rfl, rfl, rfl, rfl, rfl, rfl, rfl, rfl, rfl, rfl⟩
  | cons b bs ih =>
    cases seats with
    | nil => exact ⟨rfl, rfl, rfl, rfl, rfl, rfl, rfl, rfl, rfl, rfl⟩
    | cons s ss =>
      obtain ⟨e1, e2, e3, e4, e5, e6, e7, e8, e9, e10⟩ :=
        ih ss
          { db with
              booking_passengers := db.booking_passengers.map fun r =>
                if r.booking_passenger_id == b then
                  { r with seat_number := some (normalizeSeat s) }
                else r }
      refine ⟨e1, e2, e3, e4, e5, e6, e7, e8, e9, e10.trans ?_⟩
      show (db.booking_passengers.map _).map _ = _
      rw [List.map_map]
      apply List.map_congr_left
      intro r _
      by_cases h : r.booking_passenger_id = b
      · simp [h]
      · simp [h]

theorem idxOf?_eq_none (x : Nat) (l : List Nat) (h : x ∉ l) : idxOf? x l = none := by
  induction l with
  | nil => rfl
  | cons y ys ih =>
    simp only [List.mem_cons, not_or] at h
    obtain ⟨h1, h2⟩ := h
    have hyx : (y == x) = false := by
      simp only [beq_eq_false_iff_ne, ne_eq]
      exact fun he => h1 he.symm
    simp [idxOf?, hyx, ih h2]

theorem assignSeats_eq_map (bids : List Nat) (seats : List String) (db : DB)
    (h : bids.Nodup) :
    (assignSeats bids seats db).booking_passengers
      = db.booking_passengers.map (seatFor bids seats) := by
  induction bids generalizing seats db with
  | nil =>
    cases seats with
    | nil =>
      have hid : ∀ r : BookingPassenger, seatFor [] [] r = r := by
        intro r
        simp [seatFor, idxOf?]
      simp only [assignSeats]
      exact ((List.map_congr_left fun r _ => hid r).trans (List.map_id _)).symm
    | cons s ss =>
      have hid : ∀ r : BookingPassenger, seatFor [] (s :: ss) r = r := by
        intro r
        simp [seatFor, idxOf?]
      simp only [assignSeats]
      exact ((List.map_congr_left fun r _ => hid r).trans (List.map_id _)).symm
  | cons b bs ih =>
    cases seats with
    | nil =>
      have hid : ∀ r : BookingPassenger, seatFor (b :: bs) [] r = r := by
        intro r
        unfold seatFor
        cases idxOf? r.booking_passenger_id (b :: bs) with
        | none => rfl
        | some i => simp
      simp only [assignSeats]
      exact ((List.map_congr_left fun r _ => hid r).trans (List.map_id _)).symm
    | cons s ss =>
      have hnb : b ∉ bs := (List.nodup_cons.mp h).1
      have hbs : bs.Nodup := (List.nodup_cons.mp h).2
      simp only [assignSeats]
      rw [ih ss _ hbs, List.map_map]
      apply List.map_congr_left
      intro r _
      simp only [Function.comp_apply]
      by_cases hr : r.booking_passenger_id = b
      · have hf0 : (if r.booking_passenger_id == b then
            { r with seat_number := some (normalizeSeat s) } else r)
              = { r with seat_number := some (normalizeSeat s) } := by
          simp [hr]
        rw [hf0]
        have hL : seatFor bs ss { r with seat_number := some (normalizeSeat s) }
            = { r with seat_number := some (normalizeSeat s) } := by
          unfold seatFor
          have hpid : ({ r with seat_number := some (normalizeSeat s) }
              : BookingPassenger).booking_passenger_id = b := hr
          rw [hpid, idxOf?_eq_none b bs hnb]
        have hR : seatFor (b :: bs) (s :: ss) r
            = { r with seat_number := some (normalizeSeat s) } := by
          unfold seatFor
          simp [idxOf?, hr]
        rw [hL, hR]
      · have hf0 : (if r.booking_passenger_id == b then
            { r with seat_number := some (normalizeSeat s) } else r) = r := by
          simp [hr]
        rw [hf0]
        unfold seatFor
        have hbr : (b == r.booking_passenger_id) = false := by
          simp only [beq_eq_false_iff_ne, ne_eq]
          exact fun he => hr he.symm
        simp only [idxOf?, hbr, Bool.false_eq_true, if_false]
        cases hix : idxOf? r.booking_passenger_id bs with
        | none => simp
        | some i =>
          simp only [Option.map_some]
          rfl

theorem sum_map_const_nat {α : Type} (l : List α) (c : Nat) :
    (l.map fun _ => c).sum = l.length * c := by
  induction l with
  | nil => simp
  | cons x xs ih => simp [ih, Nat.succ_mul, Nat.add_comm]

theorem nodup_map_of_comp {α β : Type} (l : List α) (g : α → α) (f : α → β)
    (h : ∀ x, f (g x) = f x) (hn : (l.map f).Nodup) : ((l.map g).map f).Nodup := by
  rw [List.map_map]
  have hmm : l.map (f ∘ g) = l.map f := List.map_congr_left fun x _ => h x
  rw [hmm]
  exact hn

theorem WF_inv_bookings_map (db : DB) (g : Booking → Booking)
    (hid : ∀ b, (g b).booking_id = b.booking_id)
    (hfl : ∀ b, (g b).flight_id = b.flight_id)
    (hst : ∀ b ∈ db.bookings, b.status = "cancelled" → (g b).status = "cancelled")
    (hwf : WF db) (hinv : capacityInv db) :
    WF { db with bookings := db.bookings.map g } ∧
    capacityInv { db with bookings := db.bookings.map g } := by
  obtain ⟨w1, w2, w3, w4, w5, w6, w7⟩ := hwf
  constructor
  · refine ⟨?_, ?_, w3, w4, w5, w6, w7⟩
    · intro b hb
      obtain ⟨b0, hb0, rfl⟩ := List.mem_map.mp hb
      rw [hid b0]
      exact w1 b0 hb0
    · have hmm : (db.bookings.map g).map Booking.booking_id
          = db.bookings.map Booking.booking_id := by
        rw [List.map_map]
        exact List.map_congr_left fun b _ => hid b
      show ((db.bookings.map g).map Booking.booking_id).Nodup
      rw [hmm]
      exact w2
  · intro f hf a ha hfa
    exact le_trans
      (bookedSeats_bookings_map_le g db.bookings db.booking_passengers f.flight_id hid hfl hst)
      (hinv f hf a ha hfa)

theorem nodup_append_singleton {α : Type} (l : List α) (x : α)
    (hn : l.Nodup) (hx : x ∉ l) : (l ++ [x]).Nodup := by
  rw [List.nodup_append]
  refine ⟨hn, List.nodup_singleton x, ?_⟩
  intro a ha hmem
  rw [List.mem_singleton] at hmem
  exact hx (hmem ▸ ha)

theorem forall_bound_of_map_eq {α : Type} (l₁ l₂ : List α) (f : α → Nat) (N : Nat)
    (h : l₁.map f = l₂.map f) (hb : ∀ x ∈ l₂, f x < N) : ∀ x ∈ l₁, f x < N := by
  intro x hx
  have hm : f x ∈ l₁.map f := List.mem_map_of_mem f hx
  rw [h] at hm
  obtain ⟨y, hy, he⟩ := List.mem_map.mp hm
  rw [← he]
  exact hb y hy

theorem flightAircraftRows_mem (db : DB) (f : Flight) (a : Aircraft)
    (h : (f, a) ∈ flightAircraftRows db) :
    f ∈ db.flights ∧ a ∈ db.aircraft ∧ a.aircraft_id = f.aircraft_id := by
  obtain ⟨f0, hf0, hr⟩ := List.mem_flatMap.mp h
  obtain ⟨a0, ha0, heq⟩ := List.mem_map.mp hr
  have h1 : f0 = f := congrArg Prod.fst heq
  have h2 : a0 = a := congrArg Prod.snd heq
  subst h1
  subst h2
  obtain ⟨hma, hba⟩ := List.mem_filter.mp ha0
  exact ⟨hf0, hma, by simpa using hba⟩

theorem findBookableFlight_spec (db : DB) (fid : Nat) (f : Flight) (a : Aircraft)
    (h : findBookableFlight db fid = some (f, a)) :
    f ∈ db.flights ∧ a ∈ db.aircraft ∧ a.aircraft_id = f.aircraft_id ∧ f.flight_id = fid := by
  have hmem := List.mem_of_find?_eq_some h
  have hp := List.find?_some h
  obtain ⟨h1, h2, h3⟩ := flightAircraftRows_mem db f a hmem
  refine ⟨h1, h2, h3, ?_⟩
  simp only [Bool.and_eq_true, beq_iff_eq] at hp
  exact hp.1

theorem WF_inv_cancel (db : DB) (uid : Nat) (idParam : Option Nat)
    (hwf : WF db) (hinv : capacityInv db) :
    WF (cancelBooking db uid idParam).2 ∧ capacityInv (cancelBooking db uid idParam).2 := by
  cases idParam with
  | none => exact ⟨hwf, hinv⟩
  | some bid =>
    cases hf : db.bookings.find? (fun b => b.booking_id == bid && b.user_id == uid) with
    | none =>
      simp only [cancelBooking, hf]
      exact ⟨hwf, hinv⟩
    | some b =>
      simp only [cancelBooking, hf]
      by_cases h1 : b.status = "cancelled"
      · simp only [h1, beq_self_eq_true, if_true]
        exact ⟨hwf, hinv⟩
      · have h1' : (b.status == "cancelled") = false := by
          simp only [beq_eq_false_iff_ne, ne_eq]
          exact h1
        by_cases h2 : b.status = "completed"
        · simp only [h1', Bool.false_eq_true, if_false, h2, beq_self_eq_true, if_true]
          exact ⟨hwf, hinv⟩
        · have h2' : (b.status == "completed") = false := by
            simp only [beq_eq_false_iff_ne, ne_eq]
            exact h2
          simp only [h1', h2', Bool.false_eq_true, if_false]
          unfold updateBookingRows
          refine WF_inv_bookings_map db _ ?_ ?_ ?_ hwf hinv
          · intro b0
            by_cases h : b0.booking_id = bid
            · simp [h]
            · simp [h]
          · intro b0
            by_cases h : b0.booking_id = bid
            · simp [h]
            · simp [h]
          · intro b0 _ hb0
            by_cases h : b0.booking_id = bid
            · simp [h]
            · simp [h, hb0]

theorem WF_inv_after_insert (db : DB) (uid : Nat) (nb : Booking)
    (ds : List PassengerDescr) (hwf : WF db) (hinv : capacityInv db)
    (hbid : nb.booking_id = db.nextBookingId)
    (hcanc : nb.status ≠ "cancelled")
    (hcap : ∀ fp ∈ db.flights, ∀ ap ∈ db.aircraft, ap.aircraft_id = fp.aircraft_id →
        fp.flight_id = nb.flight_id →
        bookedSeats db.bookings db.booking_passengers fp.flight_id + ds.length ≤ ap.capacity) :
    WF (addPassengers uid nb.booking_id ds
        { db with bookings := db.bookings ++ [nb], nextBookingId := db.nextBookingId + 1 }) ∧
    capacityInv (addPassengers uid nb.booking_id ds
        { db with bookings := db.bookings ++ [nb], nextBookingId := db.nextBookingId + 1 }) := by
  obtain ⟨w1, w2, w3, w4, w5, w6, w7⟩ := hwf
  obtain ⟨s1, s2, s3, s4, s5, s6, ⟨newP, hp1, hp2⟩, ⟨newBps, hb1, hb2, hb3⟩⟩ :=
    addPassengers_spec uid nb.booking_id ds
      { db with bookings := db.bookings ++ [nb], nextBookingId := db.nextBookingId + 1 }
  have hlen : newBps.length = ds.length := by
    have := congrArg List.length hb2
    simpa using this
  constructor
  · refine ⟨?_, ?_, ?_, ?_, ?_, ?_, ?_⟩
    · intro b hb
      rw [s3] at hb
      rw [s5]
      rcases List.mem_append.mp hb with h | h
      · exact Nat.lt_succ_of_lt (w1 b h)
      · rw [List.mem_singleton.mp h, hbid]
        exact Nat.lt_succ_self _
    · rw [s3]
      show ((db.bookings ++ [nb]).map Booking.booking_id).Nodup
      rw [List.map_append]
      apply nodup_append_singleton _ _ w2
      intro hmem
      obtain ⟨b0, hb0, he⟩ := List.mem_map.mp hmem
      have := w1 b0 hb0
      rw [he, hbid] at this
      exact Nat.lt_irrefl _ this
    · intro bp hbp
      rw [hb1] at hbp
      rw [s5]
      rcases List.mem_append.mp hbp with h | h
      · exact Nat.lt_succ_of_lt (w3 bp h)
      · rw [hb3 bp h, hbid]
        exact Nat.lt_succ_self _
    · intro bp hbp
      rw [hb1] at hbp
      rw [s6]
      rcases List.mem_append.mp hbp with h | h
      · have := w4 bp h
        show bp.booking_passenger_id < db.nextBpId + ds.length
        omega
      · have hm : bp.booking_passenger_id ∈ newBps.map BookingPassenger.booking_passenger_id :=
          List.mem_map_of_mem _ h
        rw [hb2] at hm
        have h2 : db.nextBpId ≤ bp.booking_passenger_id ∧
            bp.booking_passenger_id < db.nextBpId + ds.length := List.mem_range'_1.mp hm
        show bp.booking_passenger_id < db.nextBpId + ds.length
        omega
    · rw [hb1]
      show ((db.booking_passengers ++ newBps).map BookingPassenger.booking_passenger_id).Nodup
      rw [List.map_append, List.nodup_append]
      refine ⟨w5, ?_, ?_⟩
      · rw [hb2]
        exact List.nodup_range' _ _ 1 (by decide)
      · intro x hx hx2
        obtain ⟨bp0, hbp0, he⟩ := List.mem_map.mp hx
        have hlt := w4 bp0 hbp0
        rw [hb2] at hx2
        have h2 : db.nextBpId ≤ x ∧ x < db.nextBpId + ds.length := List.mem_range'_1.mp hx2
        omega
    · rw [s2]
      exact w6
    · rw [s1]
      exact w7
  · intro fp hfp ap hap haid
    rw [s2] at hfp
    rw [s1] at hap
    rw [s3, hb1]
    have hfp' : fp ∈ db.flights := hfp
    have hap' : ap ∈ db.aircraft := hap
    show bookedSeats (db.bookings ++ [nb]) (db.booking_passengers ++ newBps) fp.flight_id
      ≤ ap.capacity
    rw [bookedSeats_append_bps]
    have hold : bookedSeats (db.bookings ++ [nb]) db.booking_passengers fp.flight_id
        = bookedSeats db.bookings db.booking_passengers fp.flight_id := by
      apply bookedSeats_bookings_append
      intro bp hbp
      rw [hbid]
      exact Nat.ne_of_lt (w3 bp hbp)
    have hconst : bookedSeats (db.bookings ++ [nb]) newBps fp.flight_id
        = newBps.length * bpJoinCount (db.bookings ++ [nb]) fp.flight_id nb.booking_id := by
      unfold bookedSeats
      rw [List.map_congr_left fun r hr => by rw [hb3 r hr]]
      exact sum_map_const_nat newBps _
    have hnew := bpJoinCount_append_new db.bookings nb fp.flight_id
      (fun b hb => by rw [hbid]; exact Nat.ne_of_lt (w1 b hb))
    by_cases hf2 : fp.flight_id = nb.flight_id
    · have hcond : (nb.flight_id == fp.flight_id && nb.status != "cancelled") = true := by
        simp [hf2, hcanc]
      have hval : bpJoinCount (db.bookings ++ [nb]) fp.flight_id nb.booking_id = 1 := by
        rw [hnew, hcond]
        rfl
      rw [hold, hconst, hval, hlen, Nat.mul_one]
      exact hcap fp hfp' ap hap' haid hf2
    · have hcond : (nb.flight_id == fp.flight_id && nb.status != "cancelled") = false := by
        have hb0 : (nb.flight_id == fp.flight_id) = false := by
          simp only [beq_eq_false_iff_ne, ne_eq]
          exact fun he => hf2 he.symm
        simp [hb0]
      have hval : bpJoinCount (db.bookings ++ [nb]) fp.flight_id nb.booking_id = 0 := by
        rw [hnew, hcond]
        rfl
      rw [hold, hconst, hval, Nat.mul_zero, Nat.add_zero]
      exact hinv fp hfp' ap hap' haid

theorem WF_inv_updateStatus (db : DB) (uid : Nat) (idParam : Option Nat)
    (status : Option String) (hwf : WF db) (hinv : capacityInv db)
    (hnr : noRevive db (.updateStatus uid idParam status)) :
    WF (updateBookingStatus db uid idParam status).2 ∧
    capacityInv (updateBookingStatus db uid idParam status).2 := by
  cases idParam with
  | none => exact ⟨hwf, hinv⟩
  | some bid =>
    cases status with
    | none => exact ⟨hwf, hinv⟩
    | some st =>
      by_cases hv : (!(st == "completed" || st == "missed" || st == "cancelled")) = true
      · simp only [updateBookingStatus, hv, if_true]
        exact ⟨hwf, hinv⟩
      · have hv' : (!(st == "completed" || st == "missed" || st == "cancelled")) = false := by
          revert hv
          cases (!(st == "completed" || st == "missed" || st == "cancelled")) <;> simp
        cases hf : db.bookings.find? (fun b => b.booking_id == bid && b.user_id == uid) with
        | none =>
          simp only [updateBookingStatus, hv', Bool.false_eq_true, if_false, hf]
          exact ⟨hwf, hinv⟩
        | some b =>
          simp only [updateBookingStatus, hv', Bool.false_eq_true, if_false, hf]
          unfold updateBookingRows
          refine WF_inv_bookings_map db _ ?_ ?_ ?_ hwf hinv
          · intro b0
            by_cases h : b0.booking_id = bid
            · simp [h]
            · simp [h]
          · intro b0
            by_cases h : b0.booking_id = bid
            · simp [h]
            · simp [h]
          · intro b0 hb0 hc
            by_cases h : b0.booking_id = bid
            · have := hnr b0 hb0 h hc
              simp [h, this]
            · simp [h, hc]

theorem WF_inv_create (db : DB) (uid : Nat) (ref : String) (fid : Option Nat)
    (ds : List PassengerDescr) (cls : String) (hwf : WF db) (hinv : capacityInv db) :
    WF (createBooking db uid ref fid ds cls).2 ∧
    capacityInv (createBooking db uid ref fid ds cls).2 := by
  cases fid with
  | none => exact ⟨hwf, hinv⟩
  | some n =>
    cases n with
    | zero => exact ⟨hwf, hinv⟩
    | succ m =>
      by_cases hemp : ds.isEmpty = true
      · simp only [createBooking, hemp, if_true]
        exact ⟨hwf, hinv⟩
      · have hemp' : ds.isEmpty = false := by
          revert hemp
          cases ds.isEmpty <;> simp
        cases hflt : findBookableFlight db (m + 1) with
        | none =>
          simp only [createBooking, hemp', Bool.false_eq_true, if_false, hflt]
          exact ⟨hwf, hinv⟩
        | some fa =>
          obtain ⟨f, a⟩ := fa
          by_cases hcap : ((a.capacity : Int) -
              (bookedSeats db.bookings db.booking_passengers (m + 1) : Int)
                < (ds.length : Int))
          · simp only [createBooking, hemp', Bool.false_eq_true, if_false, hflt]
            rw [if_pos hcap]
            exact ⟨hwf, hinv⟩
          · have hsucc : (createBooking db uid ref (some (m + 1)) ds cls).2
                = addPassengers uid db.nextBookingId ds
                    { db with
                        bookings := db.bookings ++
                          [⟨db.nextBookingId, ref, uid, m + 1, ds.length, cls,
                            farePrice f cls * (ds.length : Int), "confirmed", "paid"⟩],
                        nextBookingId := db.nextBookingId + 1 } := by
              simp only [createBooking, hemp', Bool.false_eq_true, if_false, hflt]
              rw [if_neg hcap]
            rw [hsucc]
            obtain ⟨hfm, ham, hfa2, hfid⟩ := findBookableFlight_spec db (m + 1) f a hflt
            have hcanc : ("confirmed" : String) ≠ "cancelled" := by decide
            refine WF_inv_after_insert db uid
              ⟨db.nextBookingId, ref, uid, m + 1, ds.length, cls,
                farePrice f cls * (ds.length : Int), "confirmed", "paid"⟩ ds hwf hinv rfl
              hcanc ?_
            intro fp hfp ap hap haid hfid2
            have hfpe : fp = f := by
              apply List.inj_on_of_nodup_map hwf.2.2.2.2.2.1 hfp hfm
              show fp.flight_id = f.flight_id
              rw [hfid]
              exact hfid2
            subst hfpe
            have hape : ap = a := by
              apply List.inj_on_of_nodup_map hwf.2.2.2.2.2.2 hap ham
              show ap.aircraft_id = a.aircraft_id
              rw [haid, hfa2]
            subst hape
            have hfid3 : fp.flight_id = m + 1 := hfid2
            rw [hfid3]
            omega

theorem WF_inv_windowPhase (db : DB) (now : Int) (b : Booking) (f : Flight)
    (hb : b ∈ db.bookings) (hconf : b.status = "confirmed")
    (hwf : WF db) (hinv : capacityInv db) :
    WF (searchWindowPhase db now b f).2 ∧ capacityInv (searchWindowPhase db now b f).2 := by
  by_cases hms : f.departure_datetime - now < 0
  · cases hci : db.check_ins.find? (fun c => c.booking_id == b.booking_id) with
    | some c =>
      have hstate : (searchWindowPhase db now b f).2 = db := by
        simp only [searchWindowPhase]
        rw [if_pos hms, hci]
      rw [hstate]
      exact ⟨hwf, hinv⟩
    | none =>
      have hstate : (searchWindowPhase db now b f).2
          = { db with bookings := updateBookingRows db.bookings b.booking_id fun x =>
              { x with status := "missed" } } := by
        simp only [searchWindowPhase]
        rw [if_pos hms, hci]
      rw [hstate]
      unfold updateBookingRows
      refine WF_inv_bookings_map db _ ?_ ?_ ?_ hwf hinv
      · intro b0
        by_cases h : b0.booking_id = b.booking_id
        · simp [h]
        · simp [h]
      · intro b0
        by_cases h : b0.booking_id = b.booking_id
        · simp [h]
        · simp [h]
      · intro b0 hb0 hc
        by_cases h : b0.booking_id = b.booking_id
        · have hbb : b0 = b := List.inj_on_of_nodup_map hwf.2.1 hb0 hb h
          rw [hbb, hconf] at hc
          simp at hc
        · simp [h, hc]
  · have hstate : (searchWindowPhase db now b f).2 = db := by
      simp only [searchWindowPhase]
      rw [if_neg hms]
      by_cases h2 : f.departure_datetime - now > 86400000
      · rw [if_pos h2]
      · rw [if_neg h2]
    rw [hstate]
    exact ⟨hwf, hinv⟩

theorem WF_inv_search (db : DB) (uid : Nat) (now : Int) (ref name : String)
    (hwf : WF db) (hinv : capacityInv db) :
    WF (checkinSearch db uid now ref name).2 ∧
    capacityInv (checkinSearch db uid now ref name).2 := by
  cases hbr : findBookingByRef db ref with
  | none =>
    simp only [checkinSearch, hbr]
    exact ⟨hwf, hinv⟩
  | some bf =>
    obtain ⟨b, f⟩ := bf
    have hbmem : b ∈ db.bookings := by
      have hm := List.mem_of_find?_eq_some hbr
      obtain ⟨b0, hb0, hr⟩ := List.mem_flatMap.mp hm
      obtain ⟨f0, hf0, heq⟩ := List.mem_map.mp hr
      have h1 : b0 = b := congrArg Prod.fst heq
      rw [h1] at hb0
      exact hb0
    cases hu : (b.user_id != uid) with
    | true =>
      simp only [checkinSearch, hbr, hu, if_true]
      exact ⟨hwf, hinv⟩
    | false =>
      cases hst : (b.status != "confirmed") with
      | true =>
        simp only [checkinSearch, hbr, hu, Bool.false_eq_true, if_false, hst, if_true]
        exact ⟨hwf, hinv⟩
      | false =>
        have hconf : b.status = "confirmed" := by
          simpa using hst
        cases hnm : (db.booking_passengers.any fun bp =>
            bp.booking_id == b.booking_id &&
              db.passengers.any fun p =>
                p.passenger_id == bp.passenger_id &&
                  lowerStr p.last_name == lowerStr name) with
        | false =>
          simp only [checkinSearch, hbr, hu, hst, Bool.false_eq_true, if_false, hnm,
            Bool.not_false, if_true]
          exact ⟨hwf, hinv⟩
        | true =>
          cases hci : db.check_ins.find? (fun c => c.booking_id == b.booking_id) with
          | some c =>
            cases hcs : (c.status == "completed") with
            | true =>
              simp only [checkinSearch, hbr, hu, hst, Bool.false_eq_true, if_false, hnm,
                Bool.not_true, hci, hcs, if_true]
              exact ⟨hwf, hinv⟩
            | false =>
              simp only [checkinSearch, hbr, hu, hst, Bool.false_eq_true, if_false, hnm,
                Bool.not_true, hci, hcs]
              exact WF_inv_windowPhase db now b f hbmem hconf hwf hinv
          | none =>
            simp only [checkinSearch, hbr, hu, hst, Bool.false_eq_true, if_false, hnm,
              Bool.not_true, hci]
            exact WF_inv_windowPhase db now b f hbmem hconf hwf hinv

theorem WF_inv_checkin_commit (db : DB) (bids : List Nat) (seats : List String)
    (ci : CheckIn) (hwf : WF db) (hinv : capacityInv db) :
    WF (assignSeats bids seats
        { db with check_ins := db.check_ins ++ [ci],
                  nextCheckInId := db.nextCheckInId + 1 }) ∧
    capacityInv (assignSeats bids seats
        { db with check_ins := db.check_ins ++ [ci],
                  nextCheckInId := db.nextCheckInId + 1 }) := by
  obtain ⟨w1, w2, w3, w4, w5, w6, w7⟩ := hwf
  obtain ⟨e1, e2, e3, e4, e5, e6, e7, e8, e9, e10⟩ :=
    assignSeats_fields bids seats
      { db with check_ins := db.check_ins ++ [ci], nextCheckInId := db.nextCheckInId + 1 }
  have hbpid : (assignSeats bids seats
      { db with check_ins := db.check_ins ++ [ci],
                nextCheckInId := db.nextCheckInId + 1 }).booking_passengers.map
        BookingPassenger.booking_passenger_id
      = db.booking_passengers.map BookingPassenger.booking_passenger_id := by
    have h := congrArg (List.map Prod.fst) e10
    rw [List.map_map, List.map_map] at h
    exact h
  have hbkid : (assignSeats bids seats
      { db with check_ins := db.check_ins ++ [ci],
                nextCheckInId := db.nextCheckInId + 1 }).booking_passengers.map
        BookingPassenger.booking_id
      = db.booking_passengers.map BookingPassenger.booking_id := by
    have h := congrArg (List.map fun t : Nat × Nat × Nat => t.2.1) e10
    rw [List.map_map, List.map_map] at h
    exact h
  refine ⟨⟨?_, ?_, ?_, ?_, ?_, ?_, ?_⟩, ?_⟩
  · intro b hb
    rw [e3] at hb
    rw [e6]
    exact w1 b hb
  · rw [e3]
    exact w2
  · rw [e6]
    exact forall_bound_of_map_eq _ db.booking_passengers BookingPassenger.booking_id
      db.nextBookingId hbkid w3
  · rw [e8]
    exact forall_bound_of_map_eq _ db.booking_passengers
      BookingPassenger.booking_passenger_id db.nextBpId hbpid w4
  · rw [hbpid]
    exact w5
  · rw [e2]
    exact w6
  · rw [e1]
    exact w7
  · intro fp hfp ap hap haid
    rw [e2] at hfp
    rw [e1] at hap
    rw [e3]
    have hcnt : bookedSeats db.bookings
        (assignSeats bids seats
          { db with check_ins := db.check_ins ++ [ci],
                    nextCheckInId := db.nextCheckInId + 1 }).booking_passengers fp.flight_id
        = bookedSeats db.bookings db.booking_passengers fp.flight_id :=
      bookedSeats_congr_ids db.bookings _ _ fp.flight_id hbkid
    rw [hcnt]
    exact hinv fp hfp ap hap haid

theorem WF_inv_confirm (db : DB) (uid : Nat) (now : Int) (bid : Nat)
    (seats : List String) (gate : Option String)
    (hwf : WF db) (hinv : capacityInv db) :
    WF (checkinConfirm db uid now bid seats gate).2 ∧
    capacityInv (checkinConfirm db uid now bid seats gate).2 := by
  cases hfb : db.bookings.find? (fun b =>
      b.booking_id == bid && b.user_id == uid && b.status == "confirmed") with
  | none =>
    simp only [checkinConfirm, hfb]
    exact ⟨hwf, hinv⟩
  | some b =>
    have hbmem : b ∈ db.bookings := List.mem_of_find?_eq_some hfb
    have hbp := List.find?_some hfb
    simp only [Bool.and_eq_true, beq_iff_eq] at hbp
    have hbid : b.booking_id = bid := hbp.1.1
    have hconf : b.status = "confirmed" := hbp.2
    cases hci : (db.check_ins.any fun c => c.booking_id == bid) with
    | true =>
      simp only [checkinConfirm, hfb, hci, if_true]
      exact ⟨hwf, hinv⟩
    | false =>
      cases hfl : db.flights.find? (fun f => f.flight_id == b.flight_id) with
      | none =>
        simp only [checkinConfirm, hfb, hci, Bool.false_eq_true, if_false, hfl]
        exact ⟨hwf, hinv⟩
      | some f =>
        by_cases hms : f.departure_datetime - now < 0
        · have hstate : (checkinConfirm db uid now bid seats gate).2
              = { db with bookings := updateBookingRows db.bookings bid fun x =>
                  { x with status := "missed" } } := by
            simp only [checkinConfirm, hfb, hci, Bool.false_eq_true, if_false, hfl]
            rw [if_pos hms]
          rw [hstate]
          unfold updateBookingRows
          refine WF_inv_bookings_map db _ ?_ ?_ ?_ hwf hinv
          · intro b0
            by_cases h : b0.booking_id = bid
            · simp [h]
            · simp [h]
          · intro b0
            by_cases h : b0.booking_id = bid
            · simp [h]
            · simp [h]
          · intro b0 hb0 hc
            by_cases h : b0.booking_id = bid
            · have hbb : b0 = b := by
                apply List.inj_on_of_nodup_map hwf.2.1 hb0 hbmem
                show b0.booking_id = b.booking_id
                rw [h, hbid]
              rw [hbb, hconf] at hc
              simp at hc
            · simp [h, hc]
        · by_cases hms2 : f.departure_datetime - now > 86400000
          · have hstate : (checkinConfirm db uid now bid seats gate).2 = db := by
              simp only [checkinConfirm, hfb, hci, Bool.false_eq_true, if_false, hfl]
              rw [if_neg hms, if_pos hms2]
            rw [hstate]
            exact ⟨hwf, hinv⟩
          · cases hcnt : ((sortBy bpIdLe
                (db.booking_passengers.filter fun bp => bp.booking_id == bid)).length
                  != seats.length) with
            | true =>
              have hstate : (checkinConfirm db uid now bid seats gate).2 = db := by
                simp only [checkinConfirm, hfb, hci, Bool.false_eq_true, if_false, hfl]
                rw [if_neg hms, if_neg hms2]
                simp only [hcnt, if_true]
              rw [hstate]
              exact ⟨hwf, hinv⟩
            | false =>
              have hstate : (checkinConfirm db uid now bid seats gate).2
                  = assignSeats
                      ((sortBy bpIdLe
                        (db.booking_passengers.filter fun bp => bp.booking_id == bid)).map
                          (·.booking_passenger_id)) seats
                      { db with
                          check_ins := db.check_ins ++
                            [⟨db.nextCheckInId, bid, now, gateOr gate,
                              f.departure_datetime - 30 * 60 * 1000, "completed"⟩],
                          nextCheckInId := db.nextCheckInId + 1 } := by
                simp only [checkinConfirm, hfb, hci, Bool.false_eq_true, if_false, hfl]
                rw [if_neg hms, if_neg hms2]
                simp only [hcnt, Bool.false_eq_true, if_false]
              rw [hstate]
              exact WF_inv_checkin_commit db _ seats _ hwf hinv

theorem WF_inv_updateFares (db : DB) (fid : Nat) (base business first : Option Int)
    (hwf : WF db) (hinv : capacityInv db) :
    WF (updateFlightFares db fid base business first).2 ∧
    capacityInv (updateFlightFares db fid base business first).2 := by
  cases hf : db.flights.find? (fun f => f.flight_id == fid) with
  | none =>
    simp only [updateFlightFares, hf]
    exact ⟨hwf, hinv⟩
  | some f0 =>
    by_cases hz : (base == none && business == none && first == none) = true
    · simp only [updateFlightFares, hf, hz, if_true]
      exact ⟨hwf, hinv⟩
    · have hz' : (base == none && business == none && first == none) = false := by
        revert hz
        cases (base == none && business == none && first == none) <;> simp
      simp only [updateFlightFares, hf, hz', Bool.false_eq_true, if_false]
      obtain ⟨w1, w2, w3, w4, w5, w6, w7⟩ := hwf
      have hflid : ∀ f : Flight,
          ((fun f => if f.flight_id == fid then
            { f with
                base_price := base.getD f.base_price,
                business_price := business.getD f.business_price,
                first_class_price := first.getD f.first_class_price }
           else f) f).flight_id = f.flight_id := by
        intro f
        by_cases h : f.flight_id = fid
        · simp [h]
        · simp [h]
      have haid : ∀ f : Flight,
          ((fun f => if f.flight_id == fid then
            { f with
                base_price := base.getD f.base_price,
                business_price := business.getD f.business_price,
                first_class_price := first.getD f.first_class_price }
           else f) f).aircraft_id = f.aircraft_id := by
        intro f
        by_cases h : f.flight_id = fid
        · simp [h]
        · simp [h]
      constructor
      · exact ⟨w1, w2, w3, w4, w5, nodup_map_of_comp db.flights _ Flight.flight_id hflid w6, w7⟩
      · intro f hf' a ha hfa
        obtain ⟨f1, hf1, rfl⟩ := List.mem_map.mp hf'
        rw [hflid f1]
        have : a.aircraft_id = f1.aircraft_id := by
          rw [hfa, haid f1]
        exact hinv f1 hf1 a ha this

/-- C1 (amended): on a well-formed store satisfying the capacity
invariant, every modelled operation — booking creation (which admits a
request only when `available_seats` is at least the requested passenger
count), cancellation, check-in search and confirm, and fare updates —
preserves the invariant; a status-update step preserves it provided it
does not change a cancelled booking to a non-cancelled status (without
that proviso the invariant can be violated, see the counterexample). -/
theorem capacity_invariant_preservation (db : DB) (s : Step)
    (hwf : WF db) (hinv : capacityInv db) (hnr : noRevive db s) :
    capacityInv (applyStep db s) := by
  cases s with
  | create uid ref fid ds cls => exact (WF_inv_create db uid ref fid ds cls hwf hinv).2
  | cancel uid bid => exact (WF_inv_cancel db uid bid hwf hinv).2
  | updateStatus uid bid st => exact (WF_inv_updateStatus db uid bid st hwf hinv hnr).2
  | search uid now ref name => exact (WF_inv_search db uid now ref name hwf hinv).2
  | confirm uid now bid seats gate =>
    exact (WF_inv_confirm db uid now bid seats gate hwf hinv).2
  | updateFares fid b bu fi => exact (WF_inv_updateFares db fid b bu fi hwf hinv).2

/-- Witness for C1: the preservation theorem applied to a concrete store
and a concrete cancel step. -/
theorem capacity_invariant_preservation_witness :
    WF wdb ∧ capacityInv wdb ∧ noRevive wdb (.cancel 7 (some 1)) ∧
    capacityInv (applyStep wdb (.cancel 7 (some 1))) :=
  ⟨by decide, by decide, trivial,
    capacity_invariant_preservation wdb (.cancel 7 (some 1)) (by decide) (by decide) trivial⟩

/-- Counterexample for C1 as stated: user-facing update-status is an
operation of the system, yet on a store satisfying the invariant it
succeeds in reviving a cancelled booking on a full flight, after which
the invariant is violated. -/
theorem capacity_invariant_update_status_counterexample :
    WF exRevive ∧ capacityInv exRevive ∧
    (updateBookingStatus exRevive 7 (some 1) (some "completed")).1 = .ok ∧
    ¬ capacityInv (applyStep exRevive (.updateStatus 7 (some 1) (some "completed"))) := by
  refine ⟨by decide, by decide, by decide, ?_⟩
  intro h
  have h1 := h ⟨1, 1, "JFK", "LAX", "scheduled", 100, 200, 300, 1000000000⟩ (by decide)
    ⟨1, 1⟩ (by decide) rfl
  revert h1
  decide


/-- C3: Cancel Booking fails NotFound (404) when no booking with the
given id belongs to the caller; fails InvalidState (400) when the booking
is already cancelled or completed, leaving the store unchanged; otherwise
it atomically sets status to `cancelled` and payment_status to `refunded`,
and a second cancel of the same booking yields the InvalidState
already-cancelled error while the status remains `cancelled`. -/
theorem cancel_booking_contract (db : DB) (uid bid : Nat) :
    (db.bookings.find? (fun b => b.booking_id == bid && b.user_id == uid) = none →
      cancelBooking db uid (some bid) = (.notFound, db) ∧
      CancelRes.httpStatus .notFound = 404) ∧
    (∀ b, db.bookings.find? (fun b => b.booking_id == bid && b.user_id == uid) = some b →
      (b.status = "cancelled" →
        cancelBooking db uid (some bid) = (.alreadyCancelled, db) ∧
        CancelRes.httpStatus .alreadyCancelled = 400) ∧
      (b.status = "completed" →
        cancelBooking db uid (some bid) = (.cannotCancelCompleted, db) ∧
        CancelRes.httpStatus .cannotCancelCompleted = 400) ∧
      (b.status ≠ "cancelled" → b.status ≠ "completed" →
        cancelBooking db uid (some bid)
          = (.ok, { db with bookings := updateBookingRows db.bookings bid fun x =>
              { x with status := "cancelled", payment_status := "refunded" } }) ∧
        (∀ x ∈ (cancelBooking db uid (some bid)).2.bookings, x.booking_id = bid →
          x.status = "cancelled" ∧ x.payment_status = "refunded") ∧
        cancelBooking (cancelBooking db uid (some bid)).2 uid (some bid)
          = (.alreadyCancelled, (cancelBooking db uid (some bid)).2))) := by
  constructor
  · intro hf
    refine ⟨?_, rfl⟩
    simp only [cancelBooking, hf]
  · intro b hf
    have hfp := List.find?_some hf
    simp only [Bool.and_eq_true, beq_iff_eq] at hfp
    have hbid : b.booking_id = bid := hfp.1
    refine ⟨?_, ?_, ?_⟩
    · intro h1
      refine ⟨?_, rfl⟩
      simp only [cancelBooking, hf, h1, beq_self_eq_true, if_true]
    · intro h2
      refine ⟨?_, rfl⟩
      simp only [cancelBooking, hf, h2]
      rfl
    · intro h1 h2
      have h1' : (b.status == "cancelled") = false := by
        simp only [beq_eq_false_iff_ne, ne_eq]
        exact h1
      have h2' : (b.status == "completed") = false := by
        simp only [beq_eq_false_iff_ne, ne_eq]
        exact h2
      have hok : cancelBooking db uid (some bid)
          = (.ok, { db with bookings := updateBookingRows db.bookings bid fun x =>
              { x with status := "cancelled", payment_status := "refunded" } }) := by
        simp only [cancelBooking, hf, h1', h2', Bool.false_eq_true, if_false]
      have hpg : ((fun x : Booking => x.booking_id == bid && x.user_id == uid) ∘
            (fun x : Booking => if x.booking_id == bid then
              { x with status := "cancelled", payment_status := "refunded" } else x))
          = (fun x : Booking => x.booking_id == bid && x.user_id == uid) := by
        funext x
        by_cases h : x.booking_id = bid
        · simp [h]
        · simp [h]
      have hfind2 : (updateBookingRows db.bookings bid fun x =>
            { x with status := "cancelled", payment_status := "refunded" }).find?
              (fun x => x.booking_id == bid && x.user_id == uid)
          = some { b with status := "cancelled", payment_status := "refunded" } := by
        unfold updateBookingRows
        rw [List.find?_map, hpg, hf]
        simp [hbid]
      refine ⟨hok, ?_, ?_⟩
      · intro x hx hxid
        rw [hok] at hx
        obtain ⟨x0, hx0, hxe⟩ := List.mem_map.mp hx
        by_cases hid : x0.booking_id = bid
        · rw [← hxe]
          simp [hid]
        · rw [← hxe] at hxid
          simp [hid] at hxid
      · rw [hok]
        show cancelBooking _ uid (some bid) = _
        simp only [cancelBooking, hfind2, beq_self_eq_true, if_true]

/-- Witness for C3: the full contract applied to the concrete store
`wdb`, whose booking 1 is confirmed and owned by user 7. -/
theorem cancel_booking_contract_witness :
    cancelBooking wdb 7 (some 1)
      = (.ok, { wdb with bookings := updateBookingRows wdb.bookings 1 fun x =>
          { x with status := "cancelled", payment_status := "refunded" } }) ∧
    (∀ x ∈ (cancelBooking wdb 7 (some 1)).2.bookings, x.booking_id = 1 →
      x.status = "cancelled" ∧ x.payment_status = "refunded") ∧
    cancelBooking (cancelBooking wdb 7 (some 1)).2 7 (some 1)
      = (.alreadyCancelled, (cancelBooking wdb 7 (some 1)).2) :=
  ((cancel_booking_contract wdb 7 1).2
    ⟨1, "BKREF1", 7, 1, 1, "economy", 100, "confirmed", "paid"⟩ (by decide)).2.2
    (by decide) (by decide)

/-- C10: the user-facing update-status operation, for any booking of the
caller and any requested status among `completed`, `missed` and
`cancelled`, unconditionally rewrites the booking's status — no
lifecycle-state check guards the transition — and leaves every row's
payment_status (and total_amount) untouched, unlike Cancel Booking. -/
theorem update_status_unconditional (db : DB) (uid bid : Nat) (st : String) (b : Booking)
    (hfb : db.bookings.find? (fun b => b.booking_id == bid && b.user_id == uid) = some b)
    (hst : st = "completed" ∨ st = "missed" ∨ st = "cancelled") :
    updateBookingStatus db uid (some bid) (some st)
      = (.ok, { db with bookings := updateBookingRows db.bookings bid fun x =>
          { x with status := st } }) ∧
    (∀ x ∈ (updateBookingStatus db uid (some bid) (some st)).2.bookings,
      ∃ x0 ∈ db.bookings, x.booking_id = x0.booking_id ∧
        x.payment_status = x0.payment_status ∧ x.total_amount = x0.total_amount) := by
  have hv : (!(st == "completed" || st == "missed" || st == "cancelled")) = false := by
    rcases hst with h | h | h <;> rw [h] <;> decide
  have heq : updateBookingStatus db uid (some bid) (some st)
      = (.ok, { db with bookings := updateBookingRows db.bookings bid fun x =>
          { x with status := st } }) := by
    simp only [updateBookingStatus, hv, Bool.false_eq_true, if_false, hfb]
  refine ⟨heq, ?_⟩
  intro x hx
  rw [heq] at hx
  obtain ⟨x0, hx0, hxe⟩ := List.mem_map.mp hx
  refine ⟨x0, hx0, ?_⟩
  rw [← hxe]
  by_cases h : x0.booking_id = bid
  · simp [h]
  · simp [h]

/-- Witness for C10: the theorem applied to `wdb`, setting the confirmed
booking 1 straight to `missed`. -/
theorem update_status_unconditional_witness :
    updateBookingStatus wdb 7 (some 1) (some "missed")
      = (.ok, { wdb with bookings := updateBookingRows wdb.bookings 1 fun x =>
          { x with status := "missed" } }) ∧
    (∀ x ∈ (updateBookingStatus wdb 7 (some 1) (some "missed")).2.bookings,
      ∃ x0 ∈ wdb.bookings, x.booking_id = x0.booking_id ∧
        x.payment_status = x0.payment_status ∧ x.total_amount = x0.total_amount) :=
  update_status_unconditional wdb 7 1 "missed"
    ⟨1, "BKREF1", 7, 1, 1, "economy", 100, "confirmed", "paid"⟩ (by decide)
    (Or.inr (Or.inl rfl))

/-- C7 (amended): when the booking resolved by reference is owned by the
caller, has status `confirmed`, and no linked passenger's last name
matches the supplied one case-insensitively, check-in search fails
NameMismatch — and that error is returned with HTTP status 404, not 403
(see the counterexample), leaving the store unchanged. -/
theorem checkin_search_name_mismatch (db : DB) (uid : Nat) (now : Int) (ref name : String)
    (b : Booking) (f : Flight)
    (hbr : findBookingByRef db ref = some (b, f))
    (hu : (b.user_id != uid) = false)
    (hconf : (b.status != "confirmed") = false)
    (hnm : (db.booking_passengers.any fun bp =>
        bp.booking_id == b.booking_id &&
          db.passengers.any fun p =>
            p.passenger_id == bp.passenger_id &&
              lowerStr p.last_name == lowerStr name) = false) :
    checkinSearch db uid now ref name = (.nameMismatch, db) ∧
    SearchRes.httpStatus .nameMismatch = 404 := by
  refine ⟨?_, rfl⟩
  simp only [checkinSearch, hbr, hu, hconf, Bool.false_eq_true, if_false, hnm,
    Bool.not_false, if_true]

/-- Witness for C7: searching `wdb`'s booking with the wrong last name. -/
theorem checkin_search_name_mismatch_witness :
    checkinSearch wdb 7 999990000 "BKREF1" "Jones" = (.nameMismatch, wdb) ∧
    SearchRes.httpStatus .nameMismatch = 404 :=
  checkin_search_name_mismatch wdb 7 999990000 "BKREF1" "Jones"
    ⟨1, "BKREF1", 7, 1, 1, "economy", 100, "confirmed", "paid"⟩
    ⟨1, 1, "JFK", "LAX", "scheduled", 100, 250, 400, 1000000000⟩
    (by decide) (by decide) (by decide) (by decide)

/-- Counterexample for C7 as stated: the last-name mismatch is returned
with HTTP status 404, not the claimed 403. -/
theorem name_mismatch_http_status_counterexample :
    (checkinSearch wdb 7 999990000 "BKREF1" "Jones").1 = .nameMismatch ∧
    SearchRes.httpStatus (checkinSearch wdb 7 999990000 "BKREF1" "Jones").1 ≠ 403 := by
  decide

/-- C8 (amended): with a resolved, owned, confirmed booking and a
matching last name, check-in search inside the open window
(`0 ≤ h ≤ 24`) returns the success shape carrying the booking and its
passenger list — but only when no completed check-in exists; when a
completed check-in already exists the response is a 400 failure
(`success = false`) carrying the booking and the `alreadyCheckedIn`
flag, returned before the window is even evaluated. -/
theorem checkin_search_window (db : DB) (uid : Nat) (now : Int) (ref name : String)
    (b : Booking) (f : Flight)
    (hbr : findBookingByRef db ref = some (b, f))
    (hu : (b.user_id != uid) = false)
    (hconf : (b.status != "confirmed") = false)
    (hnm : (db.booking_passengers.any fun bp =>
        bp.booking_id == b.booking_id &&
          db.passengers.any fun p =>
            p.passenger_id == bp.passenger_id &&
              lowerStr p.last_name == lowerStr name) = true) :
    (db.check_ins.find? (fun c => c.booking_id == b.booking_id) = none →
      0 ≤ f.departure_datetime - now → ¬ f.departure_datetime - now > 86400000 →
      checkinSearch db uid now ref name
        = (.ok b (passengerRowsFor db b.booking_id), db) ∧
      SearchRes.successFlag (.ok b (passengerRowsFor db b.booking_id)) = true) ∧
    (∀ c, db.check_ins.find? (fun c => c.booking_id == b.booking_id) = some c →
      c.status = "completed" →
      checkinSearch db uid now ref name = (.alreadyCheckedIn b, db) ∧
      SearchRes.httpStatus (.alreadyCheckedIn b) = 400 ∧
      SearchRes.successFlag (.alreadyCheckedIn b) = false) := by
  constructor
  · intro hci h0 h24
    refine ⟨?_, rfl⟩
    simp only [checkinSearch, hbr, hu, hconf, Bool.false_eq_true, if_false, hnm,
      Bool.not_true, hci]
    simp only [searchWindowPhase]
    rw [if_neg (by omega : ¬ f.departure_datetime - now < 0), if_neg h24]
  · intro c hci hcs
    refine ⟨?_, rfl, rfl⟩
    simp only [checkinSearch, hbr, hu, hconf, Bool.false_eq_true, if_false, hnm,
      Bool.not_true, hci, hcs, beq_self_eq_true, if_true]

/-- Witness for C8: the window-open success case on `wdb`, one hour
before departure, with a case-insensitive last-name match. -/
theorem checkin_search_window_witness :
    checkinSearch wdb 7 996400000 "BKREF1" "smith"
      = (.ok ⟨1, "BKREF1", 7, 1, 1, "economy", 100, "confirmed", "paid"⟩
          (passengerRowsFor wdb 1), wdb) ∧
    SearchRes.successFlag
      (.ok ⟨1, "BKREF1", 7, 1, 1, "economy", 100, "confirmed", "paid"⟩
        (passengerRowsFor wdb 1)) = true :=
  (checkin_search_window wdb 7 996400000 "BKREF1" "smith"
    ⟨1, "BKREF1", 7, 1, 1, "economy", 100, "confirmed", "paid"⟩
    ⟨1, 1, "JFK", "LAX", "scheduled", 100, 250, 400, 1000000000⟩
    (by decide) (by decide) (by decide) (by decide)).1 (by decide) (by decide) (by decide)

/-- Counterexample for C8 as stated: on `wdbChecked` the window is open
and a completed check-in exists, yet the response is a 400 failure with
`success = false`, not the window-open success shape. -/
theorem already_checked_in_failure_counterexample :
    (checkinSearch wdbChecked 7 996400000 "BKREF1" "smith").1
      = .alreadyCheckedIn ⟨1, "BKREF1", 7, 1, 1, "economy", 100, "confirmed", "paid"⟩ ∧
    SearchRes.successFlag (checkinSearch wdbChecked 7 996400000 "BKREF1" "smith").1
      = false ∧
    SearchRes.httpStatus (checkinSearch wdbChecked 7 996400000 "BKREF1" "smith").1
      = 400 := by
  decide

theorem seatFor_id (bids : List Nat) (seats : List String) (r : BookingPassenger) :
    (seatFor bids seats r).booking_passenger_id = r.booking_passenger_id := by
  unfold seatFor
  split
  · split
    · rfl
    · rfl
  · rfl

theorem idxOf?_get (l : List Nat) (i : Nat) (hi : i < l.length) (h : l.Nodup) :
    idxOf? (l.get ⟨i, hi⟩) l = some i := by
  induction l generalizing i with
  | nil => simp at hi
  | cons x xs ih =>
    cases i with
    | zero => simp [idxOf?]
    | succ j =>
      have hj : j < xs.length := by simpa using hi
      have hge : (x :: xs).get ⟨j + 1, hi⟩ = xs.get ⟨j, hj⟩ := rfl
      have hx : (x == (x :: xs).get ⟨j + 1, hi⟩) = false := by
        rw [hge]
        simp only [beq_eq_false_iff_ne, ne_eq]
        intro he
        exact (List.nodup_cons.mp h).1 (he ▸ xs.get_mem _ _)
      simp only [idxOf?, hx, Bool.false_eq_true, if_false]
      rw [hge, ih j hj (List.nodup_cons.mp h).2]
      rfl

/-- C5: for a confirmed owned booking with no existing check-in row and
`0 ≤ hoursUntilDeparture ≤ 24`, check-in confirm fails CountMismatch with
no mutation whenever the number of seat strings differs from the number
of passenger links (in either direction); otherwise it succeeds,
appending exactly one CheckIn row with status `completed` and
`boarding_time = departure_datetime − 30 minutes`, and assigning the
`i`-th seat string, trimmed and upper-cased, to the `i`-th passenger link
in `booking_passenger_id` order, all in one committed state. -/
theorem checkin_confirm_contract (db : DB) (uid : Nat) (now : Int) (bid : Nat)
    (seats : List String) (gate : Option String) (b : Booking) (f : Flight)
    (hfb : db.bookings.find? (fun b =>
      b.booking_id == bid && b.user_id == uid && b.status == "confirmed") = some b)
    (hci : (db.check_ins.any fun c => c.booking_id == bid) = false)
    (hfl : db.flights.find? (fun fl => fl.flight_id == b.flight_id) = some f)
    (h0 : 0 ≤ f.departure_datetime - now)
    (h24 : ¬ f.departure_datetime - now > 86400000) :
    ((sortBy bpIdLe (db.booking_passengers.filter fun bp => bp.booking_id == bid)).length
        ≠ seats.length →
      checkinConfirm db uid now bid seats gate
        = (.countMismatch seats.length
            (sortBy bpIdLe (db.booking_passengers.filter
              fun bp => bp.booking_id == bid)).length, db)) ∧
    ((sortBy bpIdLe (db.booking_passengers.filter fun bp => bp.booking_id == bid)).length
        = seats.length →
      (checkinConfirm db uid now bid seats gate).1
          = .ok bid (gateOr gate) (f.departure_datetime - 30 * 60 * 1000) ∧
      (checkinConfirm db uid now bid seats gate).2.check_ins
          = db.check_ins ++ [⟨db.nextCheckInId, bid, now, gateOr gate,
              f.departure_datetime - 30 * 60 * 1000, "completed"⟩] ∧
      ((db.booking_passengers.map BookingPassenger.booking_passenger_id).Nodup →
        ∀ i, ∀ hi : i < (sortBy bpIdLe (db.booking_passengers.filter
            fun bp => bp.booking_id == bid)).length, ∀ hs : i < seats.length,
          ∀ r ∈ (checkinConfirm db uid now bid seats gate).2.booking_passengers,
            r.booking_passenger_id
              = ((sortBy bpIdLe (db.booking_passengers.filter
                  fun bp => bp.booking_id == bid)).get
                    ⟨i, hi⟩).booking_passenger_id →
            r.seat_number = some (normalizeSeat (seats.get ⟨i, hs⟩)))) := by
  have hms : ¬ f.departure_datetime - now < 0 := by omega
  constructor
  · intro hne
    have hcnt : ((sortBy bpIdLe (db.booking_passengers.filter
        fun bp => bp.booking_id == bid)).length != seats.length) = true := by
      simp only [bne_iff_ne, ne_eq]
      exact hne
    simp only [checkinConfirm, hfb, hci, Bool.false_eq_true, if_false, hfl]
    rw [if_neg hms, if_neg h24]
    simp only [hcnt, if_true]
  · intro heq
    have hcnt : ((sortBy bpIdLe (db.booking_passengers.filter
        fun bp => bp.booking_id == bid)).length != seats.length) = false := by
      simp only [bne_eq_false_iff_eq]
      exact heq
    have hstate : checkinConfirm db uid now bid seats gate
        = (.ok bid (gateOr gate) (f.departure_datetime - 30 * 60 * 1000),
           assignSeats
             ((sortBy bpIdLe
               (db.booking_passengers.filter fun bp => bp.booking_id == bid)).map
                 (·.booking_passenger_id)) seats
             { db with
                 check_ins := db.check_ins ++
                   [⟨db.nextCheckInId, bid, now, gateOr gate,
                     f.departure_datetime - 30 * 60 * 1000, "completed"⟩],
                 nextCheckInId := db.nextCheckInId + 1 }) := by
      simp only [checkinConfirm, hfb, hci, Bool.false_eq_true, if_false, hfl]
      rw [if_neg hms, if_neg h24]
      simp only [hcnt, Bool.false_eq_true, if_false]
    refine ⟨by rw [hstate], ?_, ?_⟩
    · rw [hstate]
      exact (assignSeats_fields _ _ _).2.2.2.2.1
    · intro hnodup i hi hs r hr hid
      have hsub : ((db.booking_passengers.filter fun bp => bp.booking_id == bid).map
          BookingPassenger.booking_passenger_id).Nodup :=
        List.Sublist.nodup ((List.filter_sublist _).map _) hnodup
      have hperm : (((sortBy bpIdLe (db.booking_passengers.filter
            fun bp => bp.booking_id == bid)).map
              BookingPassenger.booking_passenger_id)).Perm
          ((db.booking_passengers.filter fun bp => bp.booking_id == bid).map
            BookingPassenger.booking_passenger_id) :=
        (sortBy_perm _ _).map _
      have hbidsN : ((sortBy bpIdLe (db.booking_passengers.filter
          fun bp => bp.booking_id == bid)).map
            BookingPassenger.booking_passenger_id).Nodup :=
        hperm.nodup_iff.mpr hsub
      rw [hstate] at hr
      rw [assignSeats_eq_map _ _ _ hbidsN] at hr
      obtain ⟨r0, hr0, hre⟩ := List.mem_map.mp hr
      have hi' : i < ((sortBy bpIdLe (db.booking_passengers.filter
          fun bp => bp.booking_id == bid)).map
            BookingPassenger.booking_passenger_id).length := by
        rw [List.length_map]
        exact hi
      have hr0id : r0.booking_passenger_id
          = ((sortBy bpIdLe (db.booking_passengers.filter
              fun bp => bp.booking_id == bid)).map
                BookingPassenger.booking_passenger_id).get ⟨i, hi'⟩ := by
        rw [List.get_map]
        rw [← hid, ← hre]
        exact (seatFor_id _ _ _).symm
      have hidx : idxOf? r0.booking_passenger_id
          ((sortBy bpIdLe (db.booking_passengers.filter
            fun bp => bp.booking_id == bid)).map
              BookingPassenger.booking_passenger_id) = some i := by
        rw [hr0id]
        exact idxOf?_get _ i hi' hbidsN
      have hget : seats.get? i = some (seats.get ⟨i, hs⟩) := List.get?_eq_get hs
      rw [← hre]
      simp only [seatFor, hidx, hget]

/-- Witness for C5: confirming the single-passenger booking of `wdb` one
hour before departure with seat `"12a "` yields the success result, the
completed CheckIn row with boarding time 30 minutes before departure, and
the trimmed upper-cased seat `12A` on the passenger link. -/
theorem checkin_confirm_contract_witness :
    (checkinConfirm wdb 7 996400000 1 ["12a "] none).1
        = .ok 1 "TBA" (1000000000 - 30 * 60 * 1000) ∧
    (checkinConfirm wdb 7 996400000 1 ["12a "] none).2.check_ins
        = wdb.check_ins ++
          [⟨1, 1, 996400000, "TBA", 1000000000 - 30 * 60 * 1000, "completed"⟩] ∧
    ∀ r ∈ (checkinConfirm wdb 7 996400000 1 ["12a "] none).2.booking_passengers,
      r.booking_passenger_id = 1 → r.seat_number = some "12A" := by
  obtain ⟨hok, hci, hseat⟩ :=
    (checkin_confirm_contract wdb 7 996400000 1 ["12a "] none
      ⟨1, "BKREF1", 7, 1, 1, "economy", 100, "confirmed", "paid"⟩
      ⟨1, 1, "JFK", "LAX", "scheduled", 100, 250, 400, 1000000000⟩
      (by decide) (by decide) (by decide) (by decide) (by decide)).2 (by decide)
  refine ⟨hok, hci, ?_⟩
  intro r hr hid
  have hres := hseat (by decide) 0 (by decide) (by decide) r hr
    (by rw [hid]; decide)
  rw [hres]
  decide

theorem flatMap_congr {α β : Type} (l : List α) (f f' : α → List β)
    (h : ∀ a ∈ l, f a = f' a) : l.flatMap f = l.flatMap f' := by
  induction l with
  | nil => rfl
  | cons x xs ih =>
    simp only [List.flatMap_cons]
    rw [h x (by simp), ih fun a ha => h a (by simp [ha])]

theorem flatMap_map_eq {α β : Type} (l : List α) (g : α → α) (f : α → List β) :
    (l.map g).flatMap f = l.flatMap fun a => f (g a) := by
  induction l with
  | nil => rfl
  | cons x xs ih =>
    simp only [List.map_cons, List.flatMap_cons, ih]

theorem bookingFlightRows_missed (db : DB) (bid : Nat) :
    bookingFlightRows { db with bookings := (updateBookingRows db.bookings bid
      fun x => { x with status := "missed" }) }
      = (bookingFlightRows db).map fun r =>
          (if r.1.booking_id == bid then { r.1 with status := "missed" }
           else r.1, r.2) := by
  show (db.bookings.map _).flatMap _ = _
  rw [flatMap_map_eq]
  unfold bookingFlightRows
  rw [List.map_flatMap]
  apply flatMap_congr
  intro b0 _
  have hfl : (if b0.booking_id == bid then { b0 with status := "missed" }
      else b0 : Booking).flight_id = b0.flight_id := by
    by_cases h : b0.booking_id = bid
    · simp [h]
    · simp [h]
  rw [hfl, List.map_map]
  rfl

theorem findBookingByRef_missed (db : DB) (bid : Nat) (ref : String)
    (b : Booking) (f : Flight)
    (hbr : findBookingByRef db ref = some (b, f)) (hbid : b.booking_id = bid) :
    findBookingByRef { db with bookings := (updateBookingRows db.bookings bid
      fun x => { x with status := "missed" }) } ref
      = some ({ b with status := "missed" }, f) := by
  unfold findBookingByRef
  rw [bookingFlightRows_missed, List.find?_map]
  have hpg : ((fun r : Booking × Flight => r.1.booking_reference == ref) ∘
      fun r : Booking × Flight =>
        (if r.1.booking_id == bid then { r.1 with status := "missed" }
         else r.1, r.2))
      = fun r : Booking × Flight => r.1.booking_reference == ref := by
    funext r
    by_cases h : r.1.booking_id = bid
    · simp [h]
    · simp [h]
  rw [hpg]
  show ((findBookingByRef db ref).map _) = _
  rw [hbr]
  have hbb : (b.booking_id == bid) = true := by simp [hbid]
  simp only [Option.map_some']
  rw [if_pos hbb]

theorem find_confirmed_after_missed (db : DB) (uid bid : Nat) :
    ({ db with bookings := (updateBookingRows db.bookings bid
      fun x => { x with status := "missed" }) } : DB).bookings.find? (fun x =>
        x.booking_id == bid && x.user_id == uid && x.status == "confirmed")
      = none := by
  apply List.find?_eq_none.mpr
  intro x hx
  obtain ⟨x0, hx0, hxe⟩ := List.mem_map.mp hx
  rw [← hxe]
  by_cases h : x0.booking_id = bid
  · simp [h]
  · simp [h]

theorem search_after_missed (db : DB) (uid : Nat) (now : Int) (ref name : String)
    (bid : Nat) (b : Booking) (f : Flight)
    (hbr : findBookingByRef db ref = some (b, f)) (hbid : b.booking_id = bid)
    (hu : (b.user_id != uid) = false) :
    checkinSearch { db with bookings := (updateBookingRows db.bookings bid
      fun x => { x with status := "missed" }) } uid now ref name
      = (.invalidState "missed", { db with bookings := (updateBookingRows db.bookings
          bid fun x => { x with status := "missed" }) }) := by
  have hbr1 := findBookingByRef_missed db bid ref b f hbr hbid
  have hu1 : (({ b with status := "missed" } : Booking).user_id != uid) = false := hu
  have hst1 : (({ b with status := "missed" } : Booking).status != "confirmed")
      = true := rfl
  simp only [checkinSearch, hbr1, hu1, Bool.false_eq_true, if_false, hst1, if_true]

theorem confirm_after_missed (db : DB) (uid : Nat) (now : Int) (bid : Nat)
    (seats : List String) (gate : Option String) :
    checkinConfirm { db with bookings := (updateBookingRows db.bookings bid
      fun x => { x with status := "missed" }) } uid now bid seats gate
      = (.notFoundOrState, { db with bookings := (updateBookingRows db.bookings bid
          fun x => { x with status := "missed" }) }) := by
  simp only [checkinConfirm, find_confirmed_after_missed db uid bid]

/-- C6 (amended): with `hoursUntilDeparture < 0` on an owned, confirmed
booking with no check-in record, check-in search — and likewise check-in
confirm — commits exactly one write, setting the booking's status to
`missed`, and creates no CheckIn row; the transition happens once:
afterwards the booking is non-confirmed, so a subsequent search fails
InvalidState (400) and a subsequent confirm fails with the 404 `Booking
not found or cannot be checked in` error (not InvalidState as claimed —
see the counterexample), neither changing the state again. -/
theorem missed_transition_once :
    (∀ (db : DB) (uid : Nat) (now : Int) (ref name : String) (b : Booking)
       (f : Flight) (seats : List String) (gate : Option String),
      findBookingByRef db ref = some (b, f) →
      (b.user_id != uid) = false →
      (b.status != "confirmed") = false →
      (db.booking_passengers.any fun bp =>
          bp.booking_id == b.booking_id &&
            db.passengers.any fun p =>
              p.passenger_id == bp.passenger_id &&
                lowerStr p.last_name == lowerStr name) = true →
      db.check_ins.find? (fun c => c.booking_id == b.booking_id) = none →
      f.departure_datetime - now < 0 →
      checkinSearch db uid now ref name
        = (.departed, { db with bookings := (updateBookingRows db.bookings
            b.booking_id fun x => { x with status := "missed" }) }) ∧
      (checkinSearch db uid now ref name).2.check_ins = db.check_ins ∧
      (checkinSearch (checkinSearch db uid now ref name).2 uid now ref name
        = (.invalidState "missed", (checkinSearch db uid now ref name).2) ∧
       SearchRes.httpStatus (.invalidState "missed") = 400) ∧
      (checkinConfirm (checkinSearch db uid now ref name).2 uid now
          b.booking_id seats gate
        = (.notFoundOrState, (checkinSearch db uid now ref name).2) ∧
       ConfirmRes.httpStatus .notFoundOrState = 404)) ∧
    (∀ (db : DB) (uid : Nat) (now : Int) (bid : Nat) (seats : List String)
       (gate : Option String) (b : Booking) (f : Flight),
      db.bookings.find? (fun x =>
          x.booking_id == bid && x.user_id == uid && x.status == "confirmed")
        = some b →
      (db.check_ins.any fun c => c.booking_id == bid) = false →
      db.flights.find? (fun fl => fl.flight_id == b.flight_id) = some f →
      f.departure_datetime - now < 0 →
      checkinConfirm db uid now bid seats gate
        = (.departed, { db with bookings := (updateBookingRows db.bookings bid
            fun x => { x with status := "missed" }) }) ∧
      ConfirmRes.httpStatus .departed = 400 ∧
      (checkinConfirm db uid now bid seats gate).2.check_ins = db.check_ins ∧
      (checkinConfirm (checkinConfirm db uid now bid seats gate).2 uid now
          bid seats gate
        = (.notFoundOrState, (checkinConfirm db uid now bid seats gate).2) ∧
       ConfirmRes.httpStatus .notFoundOrState = 404) ∧
      (∀ (ref name : String) (f2 : Flight),
        findBookingByRef db ref = some (b, f2) →
        checkinSearch (checkinConfirm db uid now bid seats gate).2 uid now ref name
          = (.invalidState "missed", (checkinConfirm db uid now bid seats gate).2) ∧
        SearchRes.httpStatus (.invalidState "missed") = 400)) := by
  constructor
  · intro db uid now ref name b f seats gate hbr hu hconf hnm hci hms
    have hstate : checkinSearch db uid now ref name
        = (.departed, { db with bookings := (updateBookingRows db.bookings
            b.booking_id fun x => { x with status := "missed" }) }) := by
      simp only [checkinSearch, hbr, hu, hconf, Bool.false_eq_true, if_false, hnm,
        Bool.not_true, hci]
      simp only [searchWindowPhase]
      rw [if_pos hms, hci]
    refine ⟨hstate, by rw [hstate], ⟨?_, rfl⟩, ⟨?_, rfl⟩⟩
    · rw [hstate]
      exact search_after_missed db uid now ref name b.booking_id b f hbr rfl hu
    · rw [hstate]
      exact confirm_after_missed db uid now b.booking_id seats gate
  · intro db uid now bid seats gate b f hfb hciA hfl hms
    have hbp := List.find?_some hfb
    simp only [Bool.and_eq_true, beq_iff_eq] at hbp
    have hbid : b.booking_id = bid := hbp.1.1
    have husr : b.user_id = uid := hbp.1.2
    have hstate : checkinConfirm db uid now bid seats gate
        = (.departed, { db with bookings := (updateBookingRows db.bookings bid
            fun x => { x with status := "missed" }) }) := by
      simp only [checkinConfirm, hfb, hciA, Bool.false_eq_true, if_false, hfl]
      rw [if_pos hms]
    refine ⟨hstate, rfl, by rw [hstate], ⟨?_, rfl⟩, ?_⟩
    · rw [hstate]
      exact confirm_after_missed db uid now bid seats gate
    · intro ref name f2 hbr2
      refine ⟨?_, rfl⟩
      rw [hstate]
      have hu : (b.user_id != uid) = false := by simp [husr]
      exact search_after_missed db uid now ref name bid b f2 hbr2 hbid hu

/-- Witness for C6: both parts of the theorem applied to `wdb` after
departure — search marks the booking missed once with no check-in row and
the follow-up search/confirm fail with 400/404; likewise a first confirm
call marks it missed with no check-in row, and the follow-up confirm and
search fail with 404/400. -/
theorem missed_transition_once_witness :
    (checkinSearch wdb 7 1000001000 "BKREF1" "smith"
      = (.departed, { wdb with bookings := (updateBookingRows wdb.bookings 1
          fun x => { x with status := "missed" }) }) ∧
     (checkinSearch wdb 7 1000001000 "BKREF1" "smith").2.check_ins = wdb.check_ins ∧
     (checkinSearch (checkinSearch wdb 7 1000001000 "BKREF1" "smith").2
        7 1000001000 "BKREF1" "smith"
      = (.invalidState "missed", (checkinSearch wdb 7 1000001000 "BKREF1" "smith").2) ∧
      SearchRes.httpStatus (.invalidState "missed") = 400) ∧
     (checkinConfirm (checkinSearch wdb 7 1000001000 "BKREF1" "smith").2
        7 1000001000 1 ["1A"] none
      = (.notFoundOrState, (checkinSearch wdb 7 1000001000 "BKREF1" "smith").2) ∧
      ConfirmRes.httpStatus .notFoundOrState = 404)) ∧
    (checkinConfirm wdb 7 1000001000 1 ["1A"] none
      = (.departed, { wdb with bookings := (updateBookingRows wdb.bookings 1
          fun x => { x with status := "missed" }) }) ∧
     ConfirmRes.httpStatus .departed = 400 ∧
     (checkinConfirm wdb 7 1000001000 1 ["1A"] none).2.check_ins = wdb.check_ins ∧
     (checkinConfirm (checkinConfirm wdb 7 1000001000 1 ["1A"] none).2
        7 1000001000 1 ["1A"] none
      = (.notFoundOrState, (checkinConfirm wdb 7 1000001000 1 ["1A"] none).2) ∧
      ConfirmRes.httpStatus .notFoundOrState = 404) ∧
     (checkinSearch (checkinConfirm wdb 7 1000001000 1 ["1A"] none).2
        7 1000001000 "BKREF1" "smith"
      = (.invalidState "missed", (checkinConfirm wdb 7 1000001000 1 ["1A"] none).2) ∧
      SearchRes.httpStatus (.invalidState "missed") = 400)) :=
  ⟨missed_transition_once.1 wdb 7 1000001000 "BKREF1" "smith"
     ⟨1, "BKREF1", 7, 1, 1, "economy", 100, "confirmed", "paid"⟩
     ⟨1, 1, "JFK", "LAX", "scheduled", 100, 250, 400, 1000000000⟩ ["1A"] none
     (by decide) (by decide) (by decide) (by decide) (by decide) (by decide),
   by
     have h := missed_transition_once.2 wdb 7 1000001000 1 ["1A"] none
       ⟨1, "BKREF1", 7, 1, 1, "economy", 100, "confirmed", "paid"⟩
       ⟨1, 1, "JFK", "LAX", "scheduled", 100, 250, 400, 1000000000⟩
       (by decide) (by decide) (by decide) (by decide)
     exact ⟨h.1, h.2.1, h.2.2.1, h.2.2.2.1,
       h.2.2.2.2 "BKREF1" "smith"
         ⟨1, 1, "JFK", "LAX", "scheduled", 100, 250, 400, 1000000000⟩ (by decide)⟩⟩

/-- Counterexample for C6 as stated: after the missed transition, a
subsequent confirm call fails with the 404 not-found error, not an
InvalidState 400 as the claim asserts. -/
theorem missed_transition_confirm_counterexample :
    (checkinConfirm (checkinSearch wdb 7 1000001000 "BKREF1" "smith").2
        7 1000001000 1 ["1A"] none).1 = .notFoundOrState ∧
    ConfirmRes.httpStatus (checkinConfirm
        (checkinSearch wdb 7 1000001000 "BKREF1" "smith").2
        7 1000001000 1 ["1A"] none).1 = 404 ∧
    (404 : Nat) ≠ 400 := by
  decide

theorem createBooking_atomic_spec (db : DB) (uid : Nat) (ref : String) (fid : Option Nat)
    (ds : List PassengerDescr) (cls : String) :
    ((∀ bid, (createBooking db uid ref fid ds cls).1 ≠ .ok bid) →
      (createBooking db uid ref fid ds cls).2 = db) ∧
    (∀ bid, (createBooking db uid ref fid ds cls).1 = .ok bid →
      ∃ nb : Booking, ∃ newP : List Passenger, ∃ newBps : List BookingPassenger,
        nb.booking_id = bid ∧
        (createBooking db uid ref fid ds cls).2.bookings = db.bookings ++ [nb] ∧
        (createBooking db uid ref fid ds cls).2.passengers = db.passengers ++ newP ∧
        newP.length = ds.countP (fun d => d.passenger_id == none) ∧
        (createBooking db uid ref fid ds cls).2.booking_passengers
          = db.booking_passengers ++ newBps ∧
        newBps.length = ds.length ∧ (∀ r ∈ newBps, r.booking_id = bid) ∧
        (createBooking db uid ref fid ds cls).2.flights = db.flights ∧
        (createBooking db uid ref fid ds cls).2.aircraft = db.aircraft ∧
        (createBooking db uid ref fid ds cls).2.check_ins = db.check_ins) := by
  cases fid with
  | none =>
    refine ⟨fun _ => rfl, fun bid h => ?_⟩
    simp [createBooking] at h
  | some n =>
    cases n with
    | zero =>
      refine ⟨fun _ => rfl, fun bid h => ?_⟩
      simp [createBooking] at h
    | succ m =>
      by_cases hemp : ds.isEmpty = true
      · have heq : createBooking db uid ref (some (m + 1)) ds cls = (.badRequest, db) := by
          simp only [createBooking, hemp, if_true]
        refine ⟨fun _ => by rw [heq], fun bid h => ?_⟩
        rw [heq] at h
        simp at h
      · have hemp' : ds.isEmpty = false := by
          revert hemp
          cases ds.isEmpty <;> simp
        cases hflt : findBookableFlight db (m + 1) with
        | none =>
          have heq : createBooking db uid ref (some (m + 1)) ds cls
              = (.flightNotFound, db) := by
            simp only [createBooking, hemp', Bool.false_eq_true, if_false, hflt]
          refine ⟨fun _ => by rw [heq], fun bid h => ?_⟩
          rw [heq] at h
          simp at h
        | some fa =>
          obtain ⟨f, a⟩ := fa
          by_cases hcap : ((a.capacity : Int) -
              (bookedSeats db.bookings db.booking_passengers (m + 1) : Int)
                < (ds.length : Int))
          · have heq : createBooking db uid ref (some (m + 1)) ds cls
                = (.notEnoughSeats ((a.capacity : Int) -
                    (bookedSeats db.bookings db.booking_passengers (m + 1) : Int)), db) := by
              simp only [createBooking, hemp', Bool.false_eq_true, if_false, hflt]
              rw [if_pos hcap]
            refine ⟨fun _ => by rw [heq], fun bid h => ?_⟩
            rw [heq] at h
            simp at h
          · have heq : createBooking db uid ref (some (m + 1)) ds cls
                = (.ok db.nextBookingId, addPassengers uid db.nextBookingId ds
                    { db with
                        bookings := db.bookings ++
                          [⟨db.nextBookingId, ref, uid, m + 1, ds.length, cls,
                            farePrice f cls * (ds.length : Int), "confirmed", "paid"⟩],
                        nextBookingId := db.nextBookingId + 1 }) := by
              simp only [createBooking, hemp', Bool.false_eq_true, if_false, hflt]
              rw [if_neg hcap]
            constructor
            · intro h
              exact absurd (by rw [heq]) (h db.nextBookingId)
            · intro bid h
              rw [heq] at h
              obtain rfl : db.nextBookingId = bid := by simpa using h
              obtain ⟨s1, s2, s3, s4, s5, s6, ⟨newP, hp1, hp2⟩, ⟨newBps, hb1, hb2, hb3⟩⟩ :=
                addPassengers_spec uid db.nextBookingId ds
                  { db with
                      bookings := db.bookings ++
                        [⟨db.nextBookingId, ref, uid, m + 1, ds.length, cls,
                          farePrice f cls * (ds.length : Int), "confirmed", "paid"⟩],
                      nextBookingId := db.nextBookingId + 1 }
              refine ⟨⟨db.nextBookingId, ref, uid, m + 1, ds.length, cls,
                  farePrice f cls * (ds.length : Int), "confirmed", "paid"⟩,
                newP, newBps, rfl, ?_, ?_, hp2, ?_, ?_, hb3, ?_, ?_, ?_⟩
              · rw [heq]
                exact s3
              · rw [heq]
                exact hp1
              · rw [heq]
                exact hb1
              · have := congrArg List.length hb2
                simpa using this
              · rw [heq]
                exact s2
              · rw [heq]
                exact s1
              · rw [heq]
                exact s4

/-- C2: Create Booking is atomic: every failing request (missing input,
flight not found or unbookable, capacity exceeded) leaves the store
unchanged, and every successful request commits exactly one Booking row,
one BookingPassenger link per descriptor (all pointing at the new
booking), and new Passenger rows exactly for the descriptors without a
`passenger_id`, touching no other table. -/
theorem create_booking_atomicity (db : DB) (uid : Nat) (ref : String) (fid : Option Nat)
    (ds : List PassengerDescr) (cls : String) :
    ((∀ bid, (createBooking db uid ref fid ds cls).1 ≠ .ok bid) →
      (createBooking db uid ref fid ds cls).2 = db) ∧
    (∀ bid, (createBooking db uid ref fid ds cls).1 = .ok bid →
      ∃ nb : Booking, ∃ newP : List Passenger, ∃ newBps : List BookingPassenger,
        nb.booking_id = bid ∧
        (createBooking db uid ref fid ds cls).2.bookings = db.bookings ++ [nb] ∧
        (createBooking db uid ref fid ds cls).2.passengers = db.passengers ++ newP ∧
        newP.length = ds.countP (fun d => d.passenger_id == none) ∧
        (createBooking db uid ref fid ds cls).2.booking_passengers
          = db.booking_passengers ++ newBps ∧
        newBps.length = ds.length ∧ (∀ r ∈ newBps, r.booking_id = bid) ∧
        (createBooking db uid ref fid ds cls).2.flights = db.flights ∧
        (createBooking db uid ref fid ds cls).2.aircraft = db.aircraft ∧
        (createBooking db uid ref fid ds cls).2.check_ins = db.check_ins) :=
  createBooking_atomic_spec db uid ref fid ds cls

/-- Witness for C2: creating a one-passenger booking on `wdb` succeeds
and commits exactly the three new rows. -/
theorem create_booking_atomicity_witness :
    ∃ nb : Booking, ∃ newP : List Passenger, ∃ newBps : List BookingPassenger,
      nb.booking_id = 2 ∧
      (createBooking wdb 7 "BKNEW" (some 1)
        [⟨none, "Cara", "Miles", none, false⟩] "economy").2.bookings
          = wdb.bookings ++ [nb] ∧
      (createBooking wdb 7 "BKNEW" (some 1)
        [⟨none, "Cara", "Miles", none, false⟩] "economy").2.passengers
          = wdb.passengers ++ newP ∧
      newP.length = List.countP (fun d => d.passenger_id == none)
        [(⟨none, "Cara", "Miles", none, false⟩ : PassengerDescr)] ∧
      (createBooking wdb 7 "BKNEW" (some 1)
        [⟨none, "Cara", "Miles", none, false⟩] "economy").2.booking_passengers
          = wdb.booking_passengers ++ newBps ∧
      newBps.length = 1 ∧ (∀ r ∈ newBps, r.booking_id = 2) ∧
      (createBooking wdb 7 "BKNEW" (some 1)
        [⟨none, "Cara", "Miles", none, false⟩] "economy").2.flights = wdb.flights ∧
      (createBooking wdb 7 "BKNEW" (some 1)
        [⟨none, "Cara", "Miles", none, false⟩] "economy").2.aircraft = wdb.aircraft ∧
      (createBooking wdb 7 "BKNEW" (some 1)
        [⟨none, "Cara", "Miles", none, false⟩] "economy").2.check_ins = wdb.check_ins :=
  (create_booking_atomicity wdb 7 "BKNEW" (some 1)
    [⟨none, "Cara", "Miles", none, false⟩] "economy").2 2 (by decide)

theorem windowPhase_bookings_shape (db : DB) (now : Int) (b : Booking) (f : Flight) :
    (searchWindowPhase db now b f).2.bookings = db.bookings ∨
    (searchWindowPhase db now b f).2.bookings
      = db.bookings.map fun x =>
          if x.booking_id == b.booking_id then { x with status := "missed" } else x := by
  by_cases hms : f.departure_datetime - now < 0
  · cases hci : db.check_ins.find? (fun c => c.booking_id == b.booking_id) with
    | some c =>
      left
      simp only [searchWindowPhase]
      rw [if_pos hms, hci]
    | none =>
      right
      simp only [searchWindowPhase]
      rw [if_pos hms, hci]
      rfl
  · left
    simp only [searchWindowPhase]
    rw [if_neg hms]
    by_cases h2 : f.departure_datetime - now > 86400000
    · rw [if_pos h2]
    · rw [if_neg h2]

theorem search_bookings_shape (db : DB) (uid : Nat) (now : Int) (ref name : String) :
    (checkinSearch db uid now ref name).2.bookings = db.bookings ∨
    ∃ bid, (checkinSearch db uid now ref name).2.bookings
      = db.bookings.map fun x =>
          if x.booking_id == bid then { x with status := "missed" } else x := by
  cases hbr : findBookingByRef db ref with
  | none =>
    left
    simp only [checkinSearch, hbr]
  | some bf =>
    obtain ⟨b, f⟩ := bf
    cases hu : (b.user_id != uid) with
    | true =>
      left
      simp only [checkinSearch, hbr, hu, if_true]
    | false =>
      cases hst : (b.status != "confirmed") with
      | true =>
        left
        simp only [checkinSearch, hbr, hu, Bool.false_eq_true, if_false, hst, if_true]
      | false =>
        cases hnm : (db.booking_passengers.any fun bp =>
            bp.booking_id == b.booking_id &&
              db.passengers.any fun p =>
                p.passenger_id == bp.passenger_id &&
                  lowerStr p.last_name == lowerStr name) with
        | false =>
          left
          simp only [checkinSearch, hbr, hu, hst, Bool.false_eq_true, if_false, hnm,
            Bool.not_false, if_true]
        | true =>
          cases hci : db.check_ins.find? (fun c => c.booking_id == b.booking_id) with
          | some c =>
            cases hcs : (c.status == "completed") with
            | true =>
              left
              simp only [checkinSearch, hbr, hu, hst, Bool.false_eq_true, if_false, hnm,
                Bool.not_true, hci, hcs, if_true]
            | false =>
              have hh : (checkinSearch db uid now ref name).2
                  = (searchWindowPhase db now b f).2 := by
                simp only [checkinSearch, hbr, hu, hst, Bool.false_eq_true, if_false, hnm,
                  Bool.not_true, hci, hcs]
              rw [hh]
              rcases windowPhase_bookings_shape db now b f with h | h
              · exact Or.inl h
              · exact Or.inr ⟨b.booking_id, h⟩
          | none =>
            have hh : (checkinSearch db uid now ref name).2
                = (searchWindowPhase db now b f).2 := by
              simp only [checkinSearch, hbr, hu, hst, Bool.false_eq_true, if_false, hnm,
                Bool.not_true, hci]
            rw [hh]
            rcases windowPhase_bookings_shape db now b f with h | h
            · exact Or.inl h
            · exact Or.inr ⟨b.booking_id, h⟩

theorem confirm_bookings_shape (db : DB) (uid : Nat) (now : Int) (bid : Nat)
    (seats : List String) (gate : Option String) :
    (checkinConfirm db uid now bid seats gate).2.bookings = db.bookings ∨
    (checkinConfirm db uid now bid seats gate).2.bookings
      = db.bookings.map fun x =>
          if x.booking_id == bid then { x with status := "missed" } else x := by
  cases hfb : db.bookings.find? (fun b =>
      b.booking_id == bid && b.user_id == uid && b.status == "confirmed") with
  | none =>
    left
    simp only [checkinConfirm, hfb]
  | some b =>
    cases hci : (db.check_ins.any fun c => c.booking_id == bid) with
    | true =>
      left
      simp only [checkinConfirm, hfb, hci, if_true]
    | false =>
      cases hfl : db.flights.find? (fun f => f.flight_id == b.flight_id) with
      | none =>
        left
        simp only [checkinConfirm, hfb, hci, Bool.false_eq_true, if_false, hfl]
      | some f =>
        by_cases hms : f.departure_datetime - now < 0
        · right
          simp only [checkinConfirm, hfb, hci, Bool.false_eq_true, if_false, hfl]
          rw [if_pos hms]
          rfl
        · by_cases hms2 : f.departure_datetime - now > 86400000
          · left
            simp only [checkinConfirm, hfb, hci, Bool.false_eq_true, if_false, hfl]
            rw [if_neg hms, if_pos hms2]
          · cases hcnt : ((sortBy bpIdLe
                (db.booking_passengers.filter fun bp => bp.booking_id == bid)).length
                  != seats.length) with
            | true =>
              left
              simp only [checkinConfirm, hfb, hci, Bool.false_eq_true, if_false, hfl]
              rw [if_neg hms, if_neg hms2]
              simp only [hcnt, if_true]
            | false =>
              left
              have hstate : (checkinConfirm db uid now bid seats gate).2
                  = assignSeats
                      ((sortBy bpIdLe
                        (db.booking_passengers.filter fun bp => bp.booking_id == bid)).map
                          (·.booking_passenger_id)) seats
                      { db with
                          check_ins := db.check_ins ++
                            [⟨db.nextCheckInId, bid, now, gateOr gate,
                              f.departure_datetime - 30 * 60 * 1000, "completed"⟩],
                          nextCheckInId := db.nextCheckInId + 1 } := by
                simp only [checkinConfirm, hfb, hci, Bool.false_eq_true, if_false, hfl]
                rw [if_neg hms, if_neg hms2]
                simp only [hcnt, Bool.false_eq_true, if_false]
              rw [hstate]
              exact (assignSeats_fields _ _ _).2.2.1

theorem step_bookings_shape (db : DB) (s : Step) :
    (∃ g : Booking → Booking, (applyStep db s).bookings = db.bookings.map g ∧
       ∀ b : Booking, (g b).booking_id = b.booking_id ∧
         (g b).total_amount = b.total_amount) ∨
    (∃ nb : Booking, (applyStep db s).bookings = db.bookings ++ [nb]) := by
  cases s with
  | create uid ref fid ds cls =>
    rcases (createBooking_atomic_spec db uid ref fid ds cls) with ⟨hfail, hok⟩
    by_cases h : ∀ bid, (createBooking db uid ref fid ds cls).1 ≠ .ok bid
    · left
      refine ⟨id, ?_, fun b => ⟨rfl, rfl⟩⟩
      show (createBooking db uid ref fid ds cls).2.bookings = _
      rw [hfail h, List.map_id]
    · push_neg at h
      obtain ⟨bid, hbid⟩ := h
      obtain ⟨nb, _, _, _, hbk, _⟩ := hok bid hbid
      exact Or.inr ⟨nb, hbk⟩
  | cancel uid idp =>
    show (∃ g, (cancelBooking db uid idp).2.bookings = _ ∧ _) ∨ _
    cases idp with
    | none => exact Or.inl ⟨id, (List.map_id _).symm, fun b => ⟨rfl, rfl⟩⟩
    | some bid =>
      cases hf : db.bookings.find? (fun b => b.booking_id == bid && b.user_id == uid) with
      | none =>
        left
        refine ⟨id, ?_, fun b => ⟨rfl, rfl⟩⟩
        simp only [cancelBooking, hf]
        exact (List.map_id _).symm
      | some b =>
        by_cases h1 : b.status = "cancelled"
        · left
          refine ⟨id, ?_, fun b => ⟨rfl, rfl⟩⟩
          simp only [cancelBooking, hf, h1, beq_self_eq_true, if_true]
          exact (List.map_id _).symm
        · have h1' : (b.status == "cancelled") = false := by
            simp only [beq_eq_false_iff_ne, ne_eq]
            exact h1
          by_cases h2 : b.status = "completed"
          · left
            refine ⟨id, ?_, fun b => ⟨rfl, rfl⟩⟩
            simp only [cancelBooking, hf, h1', Bool.false_eq_true, if_false, h2,
              beq_self_eq_true, if_true]
            exact (List.map_id _).symm
          · have h2' : (b.status == "completed") = false := by
              simp only [beq_eq_false_iff_ne, ne_eq]
              exact h2
            left
            refine ⟨fun x => if x.booking_id == bid then
              { x with status := "cancelled", payment_status := "refunded" } else x,
              ?_, ?_⟩
            · simp only [cancelBooking, hf, h1', h2', Bool.false_eq_true, if_false]
              rfl
            · intro x
              by_cases h : x.booking_id = bid
              · simp [h]
              · simp [h]
  | updateStatus uid idp st =>
    show (∃ g, (updateBookingStatus db uid idp st).2.bookings = _ ∧ _) ∨ _
    cases idp with
    | none => exact Or.inl ⟨id, (List.map_id _).symm, fun b => ⟨rfl, rfl⟩⟩
    | some bid =>
      cases st with
      | none => exact Or.inl ⟨id, (List.map_id _).symm, fun b => ⟨rfl, rfl⟩⟩
      | some stv =>
        by_cases hv : (!(stv == "completed" || stv == "missed" || stv == "cancelled")) = true
        · left
          refine ⟨id, ?_, fun b => ⟨rfl, rfl⟩⟩
          simp only [updateBookingStatus, hv, if_true]
          exact (List.map_id _).symm
        · have hv' : (!(stv == "completed" || stv == "missed" || stv == "cancelled"))
              = false := by
            revert hv
            cases (!(stv == "completed" || stv == "missed" || stv == "cancelled")) <;> simp
          cases hf : db.bookings.find? (fun b =>
              b.booking_id == bid && b.user_id == uid) with
          | none =>
            left
            refine ⟨id, ?_, fun b => ⟨rfl, rfl⟩⟩
            simp only [updateBookingStatus, hv', Bool.false_eq_true, if_false, hf]
            exact (List.map_id _).symm
          | some b =>
            left
            refine ⟨fun x => if x.booking_id == bid then { x with status := stv } else x,
              ?_, ?_⟩
            · simp only [updateBookingStatus, hv', Bool.false_eq_true, if_false, hf]
              rfl
            · intro x
              by_cases h : x.booking_id = bid
              · simp [h]
              · simp [h]
  | search uid now ref name =>
    rcases search_bookings_shape db uid now ref name with h | ⟨bid, h⟩
    · left
      refine ⟨id, ?_, fun b => ⟨rfl, rfl⟩⟩
      show (checkinSearch db uid now ref name).2.bookings = _
      rw [h, List.map_id]
    · left
      refine ⟨fun x => if x.booking_id == bid then { x with status := "missed" } else x,
        h, ?_⟩
      intro x
      by_cases hx : x.booking_id = bid
      · simp [hx]
      · simp [hx]
  | confirm uid now bid seats gate =>
    rcases confirm_bookings_shape db uid now bid seats gate with h | h
    · left
      refine ⟨id, ?_, fun b => ⟨rfl, rfl⟩⟩
      show (checkinConfirm db uid now bid seats gate).2.bookings = _
      rw [h, List.map_id]
    · left
      refine ⟨fun x => if x.booking_id == bid then { x with status := "missed" } else x,
        h, ?_⟩
      intro x
      by_cases hx : x.booking_id = bid
      · simp [hx]
      · simp [hx]
  | updateFares fid base business first =>
    left
    refine ⟨id, ?_, fun b => ⟨rfl, rfl⟩⟩
    show (updateFlightFares db fid base business first).2.bookings = _
    rw [List.map_id]
    cases hf : db.flights.find? (fun f => f.flight_id == fid) with
    | none => simp only [updateFlightFares, hf]
    | some f0 =>
      by_cases hz : (base == none && business == none && first == none) = true
      · simp only [updateFlightFares, hf, hz, if_true]
      · have hz' : (base == none && business == none && first == none) = false := by
          revert hz
          cases (base == none && business == none && first == none) <;> simp
        simp only [updateFlightFares, hf, hz', Bool.false_eq_true, if_false]

/-- C4: every booking committed by Create Booking has
`total_amount = fare_tier_price(flight, class) × passenger_count`, where
an unrecognized class falls back to the economy base price; and no
modelled operation — cancellation, the status updates, check-in, or a
later fare update on the flight — ever changes an existing booking's
`total_amount`. -/
theorem total_amount_formula_and_immutability :
    (∀ db : DB, ∀ uid : Nat, ∀ ref : String, ∀ fid : Nat, ∀ ds : List PassengerDescr,
      ∀ cls : String, ∀ bid : Nat, ∀ db' : DB, ∀ f : Flight, ∀ a : Aircraft,
      findBookableFlight db fid = some (f, a) →
      createBooking db uid ref (some fid) ds cls = (.ok bid, db') →
      ∃ b' ∈ db'.bookings, b'.booking_id = bid ∧
        b'.total_amount = farePrice f cls * (ds.length : Int) ∧
        (cls ≠ "economy" → cls ≠ "business" → cls ≠ "first" →
          b'.total_amount = f.base_price * (ds.length : Int))) ∧
    (∀ db : DB, ∀ s : Step, ∀ b ∈ db.bookings, ∃ b' ∈ (applyStep db s).bookings,
      b'.booking_id = b.booking_id ∧ b'.total_amount = b.total_amount) := by
  constructor
  · intro db uid ref fid ds cls bid db' f a hflt hcr
    cases fid with
    | zero => simp [createBooking] at hcr
    | succ m =>
      by_cases hemp : ds.isEmpty = true
      · rw [show createBooking db uid ref (some (m + 1)) ds cls = (.badRequest, db) by
          simp only [createBooking, hemp, if_true]] at hcr
        simp at hcr
      · have hemp' : ds.isEmpty = false := by
          revert hemp
          cases ds.isEmpty <;> simp
        by_cases hcap : ((a.capacity : Int) -
            (bookedSeats db.bookings db.booking_passengers (m + 1) : Int)
              < (ds.length : Int))
        · rw [show createBooking db uid ref (some (m + 1)) ds cls
              = (.notEnoughSeats ((a.capacity : Int) -
                  (bookedSeats db.bookings db.booking_passengers (m + 1) : Int)), db) by
            simp only [createBooking, hemp', Bool.false_eq_true, if_false, hflt]
            rw [if_pos hcap]] at hcr
          simp at hcr
        · have heq : createBooking db uid ref (some (m + 1)) ds cls
              = (.ok db.nextBookingId, addPassengers uid db.nextBookingId ds
                  { db with
                      bookings := db.bookings ++
                        [⟨db.nextBookingId, ref, uid, m + 1, ds.length, cls,
                          farePrice f cls * (ds.length : Int), "confirmed", "paid"⟩],
                      nextBookingId := db.nextBookingId + 1 }) := by
            simp only [createBooking, hemp', Bool.false_eq_true, if_false, hflt]
            rw [if_neg hcap]
          have h2 := heq.symm.trans hcr
          rw [Prod.mk.injEq] at h2
          obtain ⟨h3, h4⟩ := h2
          have hbid : db.nextBookingId = bid := by
            injection h3
          obtain ⟨s1, s2, s3, _⟩ :=
            addPassengers_spec uid db.nextBookingId ds
              { db with
                  bookings := db.bookings ++
                    [⟨db.nextBookingId, ref, uid, m + 1, ds.length, cls,
                      farePrice f cls * (ds.length : Int), "confirmed", "paid"⟩],
                  nextBookingId := db.nextBookingId + 1 }
          refine ⟨⟨db.nextBookingId, ref, uid, m + 1, ds.length, cls,
              farePrice f cls * (ds.length : Int), "confirmed", "paid"⟩, ?_, hbid, rfl, ?_⟩
          · rw [← h4]
            have hmm : (addPassengers uid db.nextBookingId ds
                { db with
                    bookings := db.bookings ++
                      [⟨db.nextBookingId, ref, uid, m + 1, ds.length, cls,
                        farePrice f cls * (ds.length : Int), "confirmed", "paid"⟩],
                    nextBookingId := db.nextBookingId + 1 }).bookings
                = db.bookings ++
                  [⟨db.nextBookingId, ref, uid, m + 1, ds.length, cls,
                    farePrice f cls * (ds.length : Int), "confirmed", "paid"⟩] := s3
            rw [hmm]
            exact List.mem_append_right _ (List.mem_singleton.mpr rfl)
          · intro he hb hf1
            have he' : (cls == "economy") = false := by
              simp only [beq_eq_false_iff_ne, ne_eq]
              exact he
            have hb' : (cls == "business") = false := by
              simp only [beq_eq_false_iff_ne, ne_eq]
              exact hb
            have hf1' : (cls == "first") = false := by
              simp only [beq_eq_false_iff_ne, ne_eq]
              exact hf1
            show farePrice f cls * (ds.length : Int) = f.base_price * (ds.length : Int)
            unfold farePrice
            rw [he', hb', hf1']
            simp
  · intro db s b hb
    rcases step_bookings_shape db s with ⟨g, hmap, hg⟩ | ⟨nb, happ⟩
    · refine ⟨g b, ?_, (hg b).1, (hg b).2⟩
      rw [hmap]
      exact List.mem_map_of_mem g hb
    · refine ⟨b, ?_, rfl, rfl⟩
      rw [happ]
      exact List.mem_append_left _ hb

/-- Witness for C4: a business-class booking on `wdb` gets
`total_amount = 250 × 1`, and a cancel step leaves booking 1's
total_amount at 100. -/
theorem total_amount_formula_witness :
    (∃ b' ∈ (createBooking wdb 7 "BKNEW" (some 1)
        [⟨none, "Cara", "Miles", none, false⟩] "business").2.bookings,
      b'.booking_id = 2 ∧
      b'.total_amount = farePrice
          ⟨1, 1, "JFK", "LAX", "scheduled", 100, 250, 400, 1000000000⟩ "business" *
        (([⟨none, "Cara", "Miles", none, false⟩] : List PassengerDescr).length : Int) ∧
      ("business" ≠ "economy" → "business" ≠ "business" → "business" ≠ "first" →
        b'.total_amount = (100 : Int) *
          (([⟨none, "Cara", "Miles", none, false⟩] : List PassengerDescr).length : Int))) ∧
    (∃ b' ∈ (applyStep wdb (.cancel 7 (some 1))).bookings,
      b'.booking_id = 1 ∧ b'.total_amount = 100) :=
  ⟨total_amount_formula_and_immutability.1 wdb 7 "BKNEW" 1
      [⟨none, "Cara", "Miles", none, false⟩] "business" 2
      (createBooking wdb 7 "BKNEW" (some 1)
        [⟨none, "Cara", "Miles", none, false⟩] "business").2
      ⟨1, 1, "JFK", "LAX", "scheduled", 100, 250, 400, 1000000000⟩ ⟨1, 5⟩
      (by decide) (by decide),
   total_amount_formula_and_immutability.2 wdb (.cancel 7 (some 1))
      ⟨1, "BKREF1", 7, 1, 1, "economy", 100, "confirmed", "paid"⟩ (by decide)⟩

/-- C9 (amended): every row returned by flight search is derived from a
bookable flight and its aircraft with `price` chosen by the fare CASE,
`total_price = price × passenger count`, and
`available_seats = max 0 (capacity − booked_count)` — clamped at zero
rather than the plain difference (see the counterexample) — all computed
at query time by a read-only handler (the embedding returns no state). -/
theorem flight_search_derived_values (db : DB) (fromC toC : Option String)
    (dep : Option Int) (pax : Nat) (cls : String) :
    ∀ r ∈ flightSearchRows db fromC toC dep pax cls,
      ∃ f ∈ db.flights, ∃ a ∈ db.aircraft, a.aircraft_id = f.aircraft_id ∧
        r.flight_id = f.flight_id ∧ r.capacity = a.capacity ∧
        r.price = farePrice f cls ∧
        r.available_seats = max 0 ((a.capacity : Int) -
          (bookedSeats db.bookings db.booking_passengers f.flight_id : Int)) ∧
        r.total_price = farePrice f cls * (pax : Int) := by
  intro r hr
  unfold flightSearchRows at hr
  obtain ⟨p, hp, rfl⟩ := List.mem_map.mp hr
  obtain ⟨hpm, hpf⟩ := List.mem_filter.mp hp
  obtain ⟨hf, ha, haf⟩ := flightAircraftRows_mem db p.1 p.2 hpm
  exact ⟨p.1, hf, p.2, ha, haf, rfl, rfl, rfl, rfl, rfl⟩

/-- Witness for C9: the single `wdb` flight searched for two economy
passengers yields price 100, capacity 5, 4 available seats and total 200. -/
theorem flight_search_derived_values_witness :
    ∃ f ∈ wdb.flights, ∃ a ∈ wdb.aircraft, a.aircraft_id = f.aircraft_id ∧
      (⟨1, 100, 5, 4, 200⟩ : FlightSearchRow).flight_id = f.flight_id ∧
      (⟨1, 100, 5, 4, 200⟩ : FlightSearchRow).capacity = a.capacity ∧
      (⟨1, 100, 5, 4, 200⟩ : FlightSearchRow).price = farePrice f "economy" ∧
      (⟨1, 100, 5, 4, 200⟩ : FlightSearchRow).available_seats
        = max 0 ((a.capacity : Int) - (bookedSeats wdb.bookings
            wdb.booking_passengers f.flight_id : Int)) ∧
      (⟨1, 100, 5, 4, 200⟩ : FlightSearchRow).total_price
        = farePrice f "economy" * ((2 : Nat) : Int) :=
  flight_search_derived_values wdb none none none 2 "economy"
    ⟨1, 100, 5, 4, 200⟩ (by decide)

/-- Counterexample for C9 as stated: on an overbooked flight the handler
reports `available_seats = 0`, not the negative `capacity − booked_count`
the claim asserts. -/
theorem available_seats_clamp_counterexample :
    ∃ r ∈ flightSearchRows exOverbooked none none none 1 "economy",
      r.available_seats ≠ (r.capacity : Int) - (bookedSeats exOverbooked.bookings
        exOverbooked.booking_passengers r.flight_id : Int) := by
  decide

end SkyWings
